import Mathlib

/-!
# MCP stdio client and server: a shallow embedding

Embedding of `src/server/mcpClient.js` (framing decoder, single pending call,
request encoder, result unwrapping) and of `src/server/mcp-server.js` (the tool
`searchWeb`, the `tools/list` handler and the `tools/call` handler).

* A JavaScript string is the list of its UTF-16 code units, so `length`,
  `slice` and `indexOf` count code units exactly as the engine does.
* The module-level variables `stdoutBuffer` and `pending` are the first two
  fields of `Client`; every function that reads or writes them takes the
  client state and returns the new one.
* `resolve` and `reject` are the callbacks of a promise; the model numbers the
  promises created by `new Promise` and records every callback invocation in
  `Client.settled`.
* The engine built-ins `JSON.parse` and `JSON.stringify` are parameters of the
  functions that call them; `jsonParse` and `jsonStringify` are reference
  instances used to evaluate the code on concrete inputs.
* What `searchWeb` takes from its surroundings (the environment variable, the
  outcome of `fetch`, `encodeURIComponent`) is the record `SearchEnv`.
-/

namespace McpStdio

/-! ## JavaScript strings -/

/-- A JavaScript string: the list of its UTF-16 code units. -/
abbrev JSString := List Nat

/-- UTF-16 code units of one Unicode scalar value. -/
def charUnits (c : Char) : List Nat :=
  if c.toNat < 0x10000 then [c.toNat]
  else [0xD800 + (c.toNat - 0x10000) / 0x400, 0xDC00 + (c.toNat - 0x10000) % 0x400]

/-- The JavaScript string written by a source literal. -/
def units (s : String) : JSString := s.data.flatMap charUnits

/-- A code unit in the range of leading surrogates. -/
def isHighSurrogate (c : Nat) : Bool := decide (0xD800 ≤ c) && decide (c ≤ 0xDBFF)

/-- A code unit in the range of trailing surrogates. -/
def isLowSurrogate (c : Nat) : Bool := decide (0xDC00 ≤ c) && decide (c ≤ 0xDFFF)

/-- UTF-8 bytes of a code unit that is not half of a surrogate pair: one below
U+0080, two below U+0800, three otherwise (a lone surrogate is written as
U+FFFD). -/
def unitBytes (c : Nat) : Nat := if c < 0x80 then 1 else if c < 0x800 then 2 else 3

/-- The value of `Buffer.byteLength(s, "utf8")`: a surrogate pair takes four
bytes, any other code unit `unitBytes`. -/
def utf8ByteLength : JSString → Nat
  | [] => 0
  | [c] => unitBytes c
  | c :: d :: rest =>
    if isHighSurrogate c && isLowSurrogate d then 4 + utf8ByteLength rest
    else unitBytes c + utf8ByteLength (d :: rest)

/-- Decimal digits of `n`, most significant first, prepended to `acc`. -/
def decimalAux : Nat → Nat → JSString → JSString
  | 0, _, acc => acc
  | fuel + 1, n, acc =>
    if n < 10 then (48 + n) :: acc
    else decimalAux fuel (n / 10) ((48 + n % 10) :: acc)

/-- Number-to-string conversion of a non-negative integer, as a template
literal performs it. -/
def toDecimal (n : Nat) : JSString := decimalAux (n + 1) n []

/-- The value of `s.startsWith(p)`. -/
def startsWith : JSString → JSString → Bool
  | [], _ => true
  | _ :: _, [] => false
  | p :: ps, c :: cs => p == c && startsWith ps cs

/-- The value of `s.indexOf(p)`: the first index at which `p` occurs, `none`
for the result -1. -/
def indexOf (p : JSString) : JSString → Option Nat
  | [] => if startsWith p [] then some 0 else none
  | c :: cs =>
    if startsWith p (c :: cs) then some 0
    else (indexOf p cs).map (· + 1)

/-- The value of `s.slice(a, b)` for `0 ≤ a` and `0 ≤ b`. -/
def slice (s : JSString) (a b : Nat) : JSString := (s.take b).drop a

/-- The value of `s.slice(a)` for `0 ≤ a`. -/
def sliceFrom (s : JSString) (a : Nat) : JSString := s.drop a

/-! ## The regular expression `/Content-Length:\s*(\d+)/i` -/

/-- Case folding of a code unit under the `i` flag without `u`: an ASCII
letter goes to its upper case; a code unit of 128 and above never folds to an
ASCII one. -/
def canonicalize (c : Nat) : Nat := if 97 ≤ c ∧ c ≤ 122 then c - 32 else c

/-- The class `\s`: white space and line terminators. -/
def isWhiteSpace (c : Nat) : Bool :=
  c == 9 || c == 10 || c == 11 || c == 12 || c == 13 || c == 32 || c == 0xA0 ||
  c == 0x1680 || (decide (0x2000 ≤ c) && decide (c ≤ 0x200A)) || c == 0x2028 ||
  c == 0x2029 || c == 0x202F || c == 0x205F || c == 0x3000 || c == 0xFEFF

/-- The class `\d`. -/
def isDigit (c : Nat) : Bool := decide (48 ≤ c) && decide (c ≤ 57)

/-- Match the literal part of the pattern at the start of the input, ignoring
case; the result is the input after the literal. -/
def matchLiteral : JSString → JSString → Option JSString
  | [], s => some s
  | _ :: _, [] => none
  | p :: ps, c :: cs =>
    if canonicalize c = canonicalize p then matchLiteral ps cs else none

/-- Match the whole pattern at the start of the input; the result is capture
group 1. `\s*` and `\d+` are greedy and their classes are disjoint, so
backtracking never finds a match that the greedy run misses. -/
def matchHere (s : JSString) : Option JSString :=
  match matchLiteral (units "Content-Length:") s with
  | none => none
  | some rest =>
    let digits := (rest.dropWhile isWhiteSpace).takeWhile isDigit
    if digits.isEmpty then none else some digits

/-- The value of `/Content-Length:\s*(\d+)/i.exec(header)`: capture group 1 of
the leftmost match, `none` for `null`. -/
def execContentLength : JSString → Option JSString
  | [] => matchHere []
  | c :: cs =>
    match matchHere (c :: cs) with
    | some digits => some digits
    | none => execContentLength cs

/-- The value of `parseInt(digits, 10)` on a non-empty string of decimal
digits. The model keeps the exact natural number; the engine rounds it to a
double above 2^53, which no string length reaches, so every comparison with
`stdoutBuffer.length` has the same outcome. -/
def parseInt10 (digits : JSString) : Nat :=
  digits.foldl (fun acc d => acc * 10 + (d - 48)) 0

/-! ## JavaScript values -/

/-- The values that `JSON.parse` can produce, together with `undefined`.
Numbers are the doubles whose value is an integer, given by that integer. An object is the list of its own
properties in enumeration order. -/
inductive JSValue where
  | undefined
  | null
  | bool (b : Bool)
  | num (n : Int)
  | str (s : JSString)
  | arr (items : List JSValue)
  | obj (props : List (JSString × JSValue))

namespace JSValue

mutual
/-- Decision procedure for equality of values. -/
def decEq : (a b : JSValue) → Decidable (a = b)
  | .undefined, .undefined => isTrue rfl
  | .null, .null => isTrue rfl
  | .bool a, .bool b =>
    if h : a = b then isTrue (by rw [h]) else isFalse (by intro e; cases e; exact h rfl)
  | .num a, .num b =>
    if h : a = b then isTrue (by rw [h]) else isFalse (by intro e; cases e; exact h rfl)
  | .str a, .str b =>
    if h : a = b then isTrue (by rw [h]) else isFalse (by intro e; cases e; exact h rfl)
  | .arr a, .arr b =>
    match decEqItems a b with
    | isTrue h => isTrue (by rw [h])
    | isFalse h => isFalse (by intro e; cases e; exact h rfl)
  | .obj a, .obj b =>
    match decEqProps a b with
    | isTrue h => isTrue (by rw [h])
    | isFalse h => isFalse (by intro e; cases e; exact h rfl)
  | .undefined, .null | .undefined, .bool _ | .undefined, .num _ | .undefined, .str _
  | .undefined, .arr _ | .undefined, .obj _ => isFalse (by intro e; cases e)
  | .null, .undefined | .null, .bool _ | .null, .num _ | .null, .str _
  | .null, .arr _ | .null, .obj _ => isFalse (by intro e; cases e)
  | .bool _, .undefined | .bool _, .null | .bool _, .num _ | .bool _, .str _
  | .bool _, .arr _ | .bool _, .obj _ => isFalse (by intro e; cases e)
  | .num _, .undefined | .num _, .null | .num _, .bool _ | .num _, .str _
  | .num _, .arr _ | .num _, .obj _ => isFalse (by intro e; cases e)
  | .str _, .undefined | .str _, .null | .str _, .bool _ | .str _, .num _
  | .str _, .arr _ | .str _, .obj _ => isFalse (by intro e; cases e)
  | .arr _, .undefined | .arr _, .null | .arr _, .bool _ | .arr _, .num _
  | .arr _, .str _ | .arr _, .obj _ => isFalse (by intro e; cases e)
  | .obj _, .undefined | .obj _, .null | .obj _, .bool _ | .obj _, .num _
  | .obj _, .str _ | .obj _, .arr _ => isFalse (by intro e; cases e)
/-- Decision procedure for equality of lists of values. -/
def decEqItems : (a b : List JSValue) → Decidable (a = b)
  | [], [] => isTrue rfl
  | [], _ :: _ => isFalse (by intro e; cases e)
  | _ :: _, [] => isFalse (by intro e; cases e)
  | x :: xs, y :: ys =>
    match decEq x y, decEqItems xs ys with
    | isTrue h, isTrue h2 => isTrue (by rw [h, h2])
    | isFalse h, _ => isFalse (by intro e; cases e; exact h rfl)
    | _, isFalse h => isFalse (by intro e; cases e; exact h rfl)
/-- Decision procedure for equality of property lists. -/
def decEqProps : (a b : List (JSString × JSValue)) → Decidable (a = b)
  | [], [] => isTrue rfl
  | [], _ :: _ => isFalse (by intro e; cases e)
  | _ :: _, [] => isFalse (by intro e; cases e)
  | (k, x) :: xs, (l, y) :: ys =>
    if hk : k = l then
      match decEq x y, decEqProps xs ys with
      | isTrue h, isTrue h2 => isTrue (by rw [hk, h, h2])
      | isFalse h, _ => isFalse (by intro e; cases e; exact h rfl)
      | _, isFalse h => isFalse (by intro e; cases e; exact h rfl)
    else isFalse (by intro e; cases e; exact hk rfl)
end

instance : DecidableEq JSValue := decEq

/-- Truthiness (`ToBoolean`). -/
def truthy : JSValue → Bool
  | .undefined => false
  | .null => false
  | .bool b => b
  | .num n => n != 0
  | .str s => !s.isEmpty
  | .arr _ => true
  | .obj _ => true

/-- The test `typeof v === "object"`: true of objects, arrays and `null`. -/
def typeofObject : JSValue → Bool
  | .null => true
  | .arr _ => true
  | .obj _ => true
  | _ => false

/-- The test `typeof v === "string"`. -/
def typeofString : JSValue → Bool
  | .str _ => true
  | _ => false

/-- The test `Array.isArray(v)`. -/
def isArray : JSValue → Bool
  | .arr _ => true
  | _ => false

/-- The test `v === null || v === undefined`, which decides `??` and `?.`. -/
def isNullish : JSValue → Bool
  | .undefined => true
  | .null => true
  | _ => false

/-- Own property lookup in a property list. -/
def lookup (key : JSString) : List (JSString × JSValue) → Option JSValue
  | [] => none
  | (k, v) :: rest => if k = key then some v else lookup key rest

/-- The value of `v.key` for a `v` that is neither `null` nor `undefined` and
a key that no prototype of `v` defines: the own property of an object,
`undefined` on an array or a primitive. The model reads the keys `error`,
`message`, `result`, `content`, `type`, `text`, `query`, `organic_results`,
`answer_box`, `answer`, `title`, `snippet` and the keys of a schema this way,
`link` on every value but a string and `length` on an object only. -/
def get (v : JSValue) (key : JSString) : JSValue :=
  match v with
  | .obj props => (lookup key props).getD .undefined
  | _ => .undefined

/-- The value of `key in v` for an object or array `v` and such a key. -/
def hasProp (key : JSString) : JSValue → Bool
  | .obj props => (lookup key props).isSome
  | _ => false

/-- Whether the integer `v` rounds to the double `x` (to nearest, ties to the
even mantissa), for an integer `x` of 2^53 and above that is a double: `x` is
`m * 2^e` with a mantissa `m` of 53 bits, and `v` must lie between the midpoints
to the neighbouring doubles, the midpoints included when `m` is even. -/
def roundsToDouble (x v : Nat) : Bool :=
  let e := Nat.log2 x - 52
  let m := x / 2 ^ e
  let half := 2 ^ (e - 1)
  let up := x + half
  let down := if m = 2 ^ 52 then x - half / 2 else x - half
  if m % 2 = 0 then decide (down ≤ v) && decide (v ≤ up)
  else decide (down < v) && decide (v < up)

/-- The decimal value with the fewest significant digits that rounds to the
double `x`, tried from `k` significant digits on: of the two multiples of the
power of ten around `x` the one that rounds to `x`, the closer one when both
do, the one with the even last digit when both are as close. -/
def shortestDecimal (x : Nat) : Nat → Nat → Nat
  | 0, _ => x
  | fuel + 1, k =>
    let p := 10 ^ ((toDecimal x).length - k)
    let lo := x / p * p
    let hi := lo + p
    if roundsToDouble x lo && roundsToDouble x hi then
      if x - lo < hi - x then lo
      else if hi - x < x - lo then hi
      else if (x / p) % 2 = 0 then lo else hi
    else if roundsToDouble x lo then lo
    else if roundsToDouble x hi then hi
    else shortestDecimal x fuel (k + 1)

/-- Exponent form of a decimal value: the first digit, the further significant
digits after a point, `e+` and the exponent. -/
def exponentForm (v : Nat) : JSString :=
  let digits := toDecimal v
  let significant := (digits.reverse.dropWhile (· == 48)).reverse
  significant.take 1 ++ (if significant.length ≤ 1 then [] else 46 :: significant.drop 1) ++
    [101, 43] ++ toDecimal (digits.length - 1)

/-- Number-to-string conversion of a non-negative integer that is a double: the
decimal digits below 10^21, the exponent form of the shortest decimal that
rounds to it from 10^21 on. -/
def natToString (n : Nat) : JSString :=
  if n < 10 ^ 21 then toDecimal n else exponentForm (shortestDecimal n 17 1)

/-- Number-to-string conversion of an integer that is a double. -/
def intToString (n : Int) : JSString :=
  if n < 0 then 45 :: natToString n.natAbs else natToString n.natAbs

mutual
/-- Whether string conversion (`ToString`) of a value throws a `TypeError`: it
does on an object with an own property `toString`, which is no function in a
value that `JSON.parse` made and hides `Object.prototype.toString`, and on an
array with such an element, since `join` converts every element that is not
`null` or `undefined`. -/
def toStrThrows : JSValue → Bool
  | .arr items => anyThrows items
  | .obj props => (lookup (units "toString") props).isSome
  | _ => false
/-- Whether string conversion of some element throws. -/
def anyThrows : List JSValue → Bool
  | [] => false
  | x :: rest => toStrThrows x || anyThrows rest
end

mutual
/-- String conversion (`ToString`), as `new Error(v)` and a template literal
perform it, of a value on which it does not throw (`toStrThrows`). -/
def toStr : JSValue → JSString
  | .undefined => units "undefined"
  | .null => units "null"
  | .bool true => units "true"
  | .bool false => units "false"
  | .num n => intToString n
  | .str s => s
  | .arr items => joinItems items
  | .obj _ => units "[object Object]"
/-- The value of `items.join(",")`: `null` and `undefined` give the empty string. -/
def joinItems : List JSValue → JSString
  | [] => []
  | [x] => if x.isNullish then [] else toStr x
  | x :: y :: rest =>
    (if x.isNullish then [] else toStr x) ++ 44 :: joinItems (y :: rest)
end

end JSValue

open JSValue

/-! ## Client state: `src/server/mcpClient.js` -/

/-- An `Error` object, by its message. -/
structure JSError where
  message : JSString
deriving DecidableEq

/-- One invocation of a promise callback. -/
inductive Settlement where
  | resolve (value : JSValue)
  | reject (err : JSError)
deriving DecidableEq

/-- State of the client module. `stdoutBuffer` and `pending` are the module
variables; `pending` holds the number of the promise whose `{ resolve, reject }`
it stores. The other fields record what the code does to its surroundings:
`promises` counts the promises created by `sendRequest`, `settled` lists the
`resolve` and `reject` invocations in order, `handled` lists the arguments of
the `handleMessage` invocations in order, `stdin` lists the payloads passed to
`child.stdin.write` in order. -/
structure Client where
  stdoutBuffer : JSString
  pending : Option Nat
  promises : Nat
  settled : List (Nat × Settlement)
  handled : List JSValue
  stdin : List JSString
deriving DecidableEq

/-- The module state right after loading. -/
def Client.init : Client :=
  { stdoutBuffer := [], pending := none, promises := 0, settled := [], handled := [], stdin := [] }

/-- The function `handleMessage(msg)`. When `new Error(...)` throws, because the
string conversion of a truthy `msg.error.message` throws, the function is left
after `pending = null` and before `reject` is called; its only caller,
`processStdoutBuffer`, catches the exception and goes on, so the state reached
is the one with the slot cleared and no callback invoked. -/
def handleMessage (s : Client) (msg : JSValue) : Client :=
  let s := { s with handled := s.handled ++ [msg] }
  if !msg.truthy || !msg.typeofObject then s
  else
    match s.pending with
    | none => s
    | some p =>
      let s := { s with pending := none }
      if msg.hasProp (units "error") && (msg.get (units "error")).truthy then
        let m := (msg.get (units "error")).get (units "message")
        if m.truthy && toStrThrows m then s
        else
          let text := if m.truthy then toStr m else units "MCP error"
          { s with settled := s.settled ++ [(p, .reject ⟨text⟩)] }
      else if msg.hasProp (units "result") then
        { s with settled := s.settled ++ [(p, .resolve (msg.get (units "result")))] }
      else
        { s with settled := s.settled ++ [(p, .resolve msg)] }

/-- The `while (true)` loop of `processStdoutBuffer`, one iteration per unit of
fuel; `none` when the fuel runs out before the loop returns. -/
def processLoop (parse : JSString → Option JSValue) : Nat → Client → Option Client
  | 0, _ => none
  | fuel + 1, s =>
    match indexOf (units "\r\n\r\n") s.stdoutBuffer with
    | none => some s
    | some headerEnd =>
      let header := slice s.stdoutBuffer 0 headerEnd
      match execContentLength header with
      | none => some { s with stdoutBuffer := [] }
      | some digits =>
        let length := parseInt10 digits
        let totalLength := headerEnd + 4 + length
        if s.stdoutBuffer.length < totalLength then some s
        else
          let jsonPayload := slice s.stdoutBuffer (headerEnd + 4) totalLength
          let s1 := { s with stdoutBuffer := sliceFrom s.stdoutBuffer totalLength }
          match parse jsonPayload with
          | some message => processLoop parse fuel (handleMessage s1 message)
          | none => processLoop parse fuel s1

/-- The function `processStdoutBuffer()`. Every iteration that goes on removes
at least the four separator units, so the buffer length plus one is enough fuel
(`processStdoutBuffer_returns`). `parse` is `JSON.parse`, `none` when it throws. -/
def processStdoutBuffer (parse : JSString → Option JSValue) (s : Client) : Option Client :=
  processLoop parse (s.stdoutBuffer.length + 1) s

/-- The listener `child.stdout.on("data", ...)`. -/
def onData (parse : JSString → Option JSValue) (s : Client) (chunk : JSString) : Option Client :=
  processStdoutBuffer parse { s with stdoutBuffer := s.stdoutBuffer ++ chunk }

/-- Successive `data` events, one per chunk. -/
def onDataAll (parse : JSString → Option JSValue) (s : Client) (chunks : List JSString) :
    Option Client :=
  chunks.foldlM (onData parse) s

/-- The listener `child.on("error", ...)`. -/
def onError (s : Client) (err : JSError) : Client :=
  match s.pending with
  | some p => { s with pending := none, settled := s.settled ++ [(p, .reject err)] }
  | none => s

/-- The message built by the `exit` listener: `code` is a number or `null`,
`signal` a string or `null`. -/
def exitMessage (code : Option Int) (signal : Option JSString) : JSString :=
  units "MCP server exited with code " ++ (code.map intToString).getD (units "null") ++
    units " signal " ++ signal.getD (units "null")

/-- The listener `child.on("exit", ...)`. -/
def onExit (s : Client) (code : Option Int) (signal : Option JSString) : Client :=
  let err : JSError := ⟨exitMessage code signal⟩
  match s.pending with
  | some p => { s with pending := none, settled := s.settled ++ [(p, .reject err)] }
  | none => s

/-- What `sendRequest` returns: a promise already rejected, or the new promise
whose callbacks it stored in `pending`. -/
inductive SendResult where
  | rejected (err : JSError)
  | promise (id : Nat)
deriving DecidableEq

/-- The message of the busy rejection. -/
def busyMessage : JSString :=
  units "Only one MCP request at a time is supported in this client"

/-- The request object built by `sendRequest`. -/
def requestMessage (method params : JSValue) : JSValue :=
  .obj [(units "jsonrpc", .str (units "2.0")), (units "id", .str (units "1")),
    (units "method", method), (units "params", params)]

/-- The frame around a JSON text: the template literal of `sendRequest`. -/
def encodeFrame (json : JSString) : JSString :=
  units "Content-Length: " ++ toDecimal (utf8ByteLength json) ++ units "\r\n\r\n" ++ json

/-- The function `sendRequest(method, params)` up to its return; the callback
of the write runs later (`writeCallback`). `stringify` is `JSON.stringify`. -/
def sendRequest (stringify : JSValue → JSString) (s : Client) (method params : JSValue) :
    Client × SendResult :=
  if s.pending.isSome then (s, .rejected ⟨busyMessage⟩)
  else
    let msg := requestMessage method params
    let json := stringify msg
    let payload := encodeFrame json
    ({ s with pending := some s.promises, promises := s.promises + 1,
              stdin := s.stdin ++ [payload] }, .promise s.promises)

/-- The callback that `sendRequest` passes to `child.stdin.write`, for the call
whose promise is `id`; `err` is `none` when the write succeeded. -/
def writeCallback (s : Client) (id : Nat) (err : Option JSError) : Client :=
  match err with
  | none => s
  | some e => { s with pending := none, settled := s.settled ++ [(id, .reject e)] }

/-- The first callback invocation recorded for promise `id`: the state the
promise is settled in, `none` while it is pending. -/
def promiseState (s : Client) (id : Nat) : Option Settlement :=
  (s.settled.find? (fun e => e.1 == id)).map (·.2)

/-- The request part of `callMcpTool(toolName, args)`: the `sendRequest` call
that it awaits. -/
def callMcpTool (stringify : JSValue → JSString) (s : Client) (toolName args : JSValue) :
    Client × SendResult :=
  sendRequest stringify s (.str (units "tools/call"))
    (.obj [(units "name", toolName), (units "arguments", args)])

/-- The search `result.content.find((c) => c.type === "text")`: `none` when
reading `c.type` throws a `TypeError` because `c` is `null` or `undefined`,
otherwise the first item found, `undefined` when there is none. -/
def findTextItem : List JSValue → Option JSValue
  | [] => some .undefined
  | c :: rest =>
    if c.isNullish then none
    else if c.get (units "type") = .str (units "text") then some c
    else findTextItem rest

/-- The value of `JSON.stringify(result)` as `callMcpTool` returns it:
`undefined` for `undefined`, the JSON text otherwise. -/
def stringifyValue (stringify : JSValue → JSString) (result : JSValue) : JSValue :=
  match result with
  | .undefined => .undefined
  | r => .str (stringify r)

/-- The part of `callMcpTool` after the awaited request has resolved with
`result`: the value it returns, `none` when it throws. -/
def callMcpToolReturn (stringify : JSValue → JSString) (result : JSValue) : Option JSValue :=
  if !result.truthy then some (stringifyValue stringify result)
  else
    match result.get (units "content") with
    | .arr items =>
      match findTextItem items with
      | none => none
      | some textItem =>
        if textItem.isNullish then some (stringifyValue stringify result)
        else
          let text := textItem.get (units "text")
          if text.isNullish then some (stringifyValue stringify result) else some text
    | _ => some (stringifyValue stringify result)

/-! ## The `tools/call` handler: `src/server/mcp-server.js` -/

/-- An error-flagged tool result with one text item. -/
def errorResult (text : JSString) : JSValue :=
  .obj [(units "content", .arr [.obj [(units "type", .str (units "text")),
    (units "text", .str text)]]), (units "isError", .bool true)]

/-- One run of the `tools/call` handler: the value it returns and the
arguments of its `searchWeb` invocations, in order. -/
structure HandlerRun where
  result : JSValue
  searchWebCalls : List JSString
deriving DecidableEq

/-- The handler registered for `CallToolRequestSchema`, applied to
`request.params.name`, which the request schema makes a string, and
`request.params.arguments`. `searchWeb` is the
function of that name, by the value its promise resolves with. -/
def callToolHandler (searchWeb : JSString → JSValue) (name args : JSValue) : HandlerRun :=
  if name = .str (units "search_web") then
    if !args.truthy then
      ⟨errorResult (units "Error: 'query' parameter is required and must be a string"), []⟩
    else
      match args.get (units "query") with
      | .str query => ⟨searchWeb query, [query]⟩
      | _ => ⟨errorResult (units "Error: 'query' parameter is required and must be a string"), []⟩
  else
    ⟨errorResult (units "Unknown tool: " ++ toStr name), []⟩

/-! ## Reference instances of `JSON.stringify` and `JSON.parse` -/

/-- Lower-case hexadecimal digit. -/
def hexDigit (n : Nat) : Nat := if n < 10 then 48 + n else 87 + n

/-- The escape `\uXXXX` of a code unit. -/
def unicodeEscape (c : Nat) : JSString :=
  [92, 117, hexDigit (c / 4096 % 16), hexDigit (c / 256 % 16), hexDigit (c / 16 % 16),
    hexDigit (c % 16)]

/-- How `JSON.stringify` writes a code unit that is not half of a surrogate
pair. -/
def quoteUnit (c : Nat) : JSString :=
  if c = 8 then [92, 98]
  else if c = 9 then [92, 116]
  else if c = 10 then [92, 110]
  else if c = 12 then [92, 102]
  else if c = 13 then [92, 114]
  else if c = 34 then [92, 34]
  else if c = 92 then [92, 92]
  else if c < 32 then unicodeEscape c
  else if isHighSurrogate c || isLowSurrogate c then unicodeEscape c
  else [c]

/-- The body of a quoted JSON string: a surrogate pair is kept, every other
code unit goes through `quoteUnit`. -/
def quoteUnits : JSString → JSString
  | [] => []
  | [c] => quoteUnit c
  | c :: d :: rest =>
    if isHighSurrogate c && isLowSurrogate d then c :: d :: quoteUnits rest
    else quoteUnit c ++ quoteUnits (d :: rest)

/-- The operation `QuoteJSONString`. -/
def quoteJSONString (s : JSString) : JSString := 34 :: quoteUnits s ++ [34]

mutual
/-- Reference instance of `JSON.stringify(v)` without indentation, for a value
other than `undefined`. -/
def jsonStringify : JSValue → JSString
  | .undefined => units "null"
  | .null => units "null"
  | .bool true => units "true"
  | .bool false => units "false"
  | .num n => intToString n
  | .str s => quoteJSONString s
  | .arr items => 91 :: stringifyItems items ++ [93]
  | .obj props => 123 :: stringifyProps props false ++ [125]
/-- Elements of an array, separated by commas; `undefined` is written `null`. -/
def stringifyItems : List JSValue → JSString
  | [] => []
  | [x] => jsonStringify x
  | x :: y :: rest => jsonStringify x ++ 44 :: stringifyItems (y :: rest)
/-- Properties of an object, separated by commas; a property whose value is
`undefined` is left out. The flag says whether a property was written before. -/
def stringifyProps : List (JSString × JSValue) → Bool → JSString
  | [], _ => []
  | (_, .undefined) :: rest, written => stringifyProps rest written
  | (k, v) :: rest, written =>
    (if written then [44] else []) ++ quoteJSONString k ++ 58 :: jsonStringify v ++
      stringifyProps rest true
end

/-- JSON white space. -/
def isJsonSpace (c : Nat) : Bool := c == 32 || c == 9 || c == 10 || c == 13

/-- Value of a hexadecimal digit. -/
def hexValue (c : Nat) : Option Nat :=
  if 48 ≤ c ∧ c ≤ 57 then some (c - 48)
  else if 97 ≤ c ∧ c ≤ 102 then some (c - 87)
  else if 65 ≤ c ∧ c ≤ 70 then some (c - 55)
  else none

/-- The rest of a JSON string after its opening quote: the decoded code units
(after `acc`, reversed) and the input after the closing quote. -/
def parseStringBody : JSString → JSString → Option (JSString × JSString)
  | [], _ => none
  | 34 :: rest, acc => some (acc.reverse, rest)
  | 92 :: 34 :: rest, acc => parseStringBody rest (34 :: acc)
  | 92 :: 92 :: rest, acc => parseStringBody rest (92 :: acc)
  | 92 :: 47 :: rest, acc => parseStringBody rest (47 :: acc)
  | 92 :: 98 :: rest, acc => parseStringBody rest (8 :: acc)
  | 92 :: 102 :: rest, acc => parseStringBody rest (12 :: acc)
  | 92 :: 110 :: rest, acc => parseStringBody rest (10 :: acc)
  | 92 :: 114 :: rest, acc => parseStringBody rest (13 :: acc)
  | 92 :: 116 :: rest, acc => parseStringBody rest (9 :: acc)
  | 92 :: 117 :: a :: b :: c :: d :: rest, acc =>
    match hexValue a, hexValue b, hexValue c, hexValue d with
    | some x, some y, some z, some w =>
      parseStringBody rest ((x * 4096 + y * 256 + z * 16 + w) :: acc)
    | _, _, _, _ => none
  | 92 :: _, _ => none
  | c :: rest, acc => if c < 32 then none else parseStringBody rest (c :: acc)

/-- A JSON number written as an integer: an optional minus sign, then `0` or a
digit run without leading zero. -/
def parseInteger (s : JSString) : Option (JSValue × JSString) :=
  let neg := s.head? == some 45
  let body := if neg then s.drop 1 else s
  let digits := body.takeWhile isDigit
  let rest := body.dropWhile isDigit
  if digits.isEmpty then none
  else if digits.head? == some 48 && digits.length != 1 then none
  else if rest.head? == some 46 || rest.head? == some 101 || rest.head? == some 69 then none
  else some (.num (if neg then -(parseInt10 digits : Int) else (parseInt10 digits : Int)), rest)

/-- The effect of `CreateDataProperty` on a property list: an existing key
keeps its place and takes the new value, a new key goes last. -/
def setProp (key : JSString) (v : JSValue) : List (JSString × JSValue) → List (JSString × JSValue)
  | [] => [(key, v)]
  | (k, w) :: rest => if k = key then (k, v) :: rest else (k, w) :: setProp key v rest

mutual
/-- One JSON value at the start of the input, and the input after it. -/
def parseValue : Nat → JSString → Option (JSValue × JSString)
  | 0, _ => none
  | fuel + 1, s =>
    match s.dropWhile isJsonSpace with
    | 110 :: 117 :: 108 :: 108 :: rest => some (.null, rest)
    | 116 :: 114 :: 117 :: 101 :: rest => some (.bool true, rest)
    | 102 :: 97 :: 108 :: 115 :: 101 :: rest => some (.bool false, rest)
    | 34 :: rest =>
      match parseStringBody rest [] with
      | some (text, r) => some (JSValue.str text, r)
      | none => none
    | 91 :: rest =>
      match rest.dropWhile isJsonSpace with
      | 93 :: r => some (.arr [], r)
      | r =>
        match parseItems fuel r with
        | some (items, r2) => some (.arr items, r2)
        | none => none
    | 123 :: rest =>
      match rest.dropWhile isJsonSpace with
      | 125 :: r => some (.obj [], r)
      | r =>
        match parseMembers fuel r [] with
        | some (props, r2) => some (.obj props, r2)
        | none => none
    | c :: rest => parseInteger (c :: rest)
    | [] => none
/-- The elements of a non-empty array up to and including the closing bracket. -/
def parseItems : Nat → JSString → Option (List JSValue × JSString)
  | 0, _ => none
  | fuel + 1, s =>
    match parseValue fuel s with
    | none => none
    | some (v, r) =>
      match r.dropWhile isJsonSpace with
      | 44 :: r2 =>
        match parseItems fuel r2 with
        | some (vs, r3) => some (v :: vs, r3)
        | none => none
      | 93 :: r2 => some ([v], r2)
      | _ => none
/-- The members of a non-empty object up to and including the closing brace,
added to the properties read so far. -/
def parseMembers : Nat → JSString → List (JSString × JSValue) →
    Option (List (JSString × JSValue) × JSString)
  | 0, _, _ => none
  | fuel + 1, s, props =>
    match s.dropWhile isJsonSpace with
    | 34 :: rest =>
      match parseStringBody rest [] with
      | none => none
      | some (key, r) =>
        match r.dropWhile isJsonSpace with
        | 58 :: r2 =>
          match parseValue fuel r2 with
          | none => none
          | some (v, r3) =>
            match r3.dropWhile isJsonSpace with
            | 44 :: r4 => parseMembers fuel r4 (setProp key v props)
            | 125 :: r4 => some (setProp key v props, r4)
            | _ => none
        | _ => none
    | _ => none
end

/-- Reference instance of `JSON.parse(text)`, `none` when it throws, for texts
whose numbers are written as integers of magnitude up to 2^53 and whose object
keys are not array indices. Each level of nesting reads at least one code unit, so twice the
length of the text is enough fuel. -/
def jsonParse (text : JSString) : Option JSValue :=
  match parseValue (2 * text.length + 2) text with
  | some (v, rest) => if (rest.dropWhile isJsonSpace).isEmpty then some v else none
  | none => none

/-! ## Concrete inputs and the shape of a frame -/

/-- The buffer that holds the header of `encodeFrame` for a declared length `n`,
the separator and `body`. -/
def frameBuffer (n : Nat) (body : JSString) : JSString :=
  units "Content-Length: " ++ toDecimal n ++ units "\r\n\r\n" ++ body

/-- The request that `callMcpTool("search_web", { query: "café" })` sends. -/
def cafeRequest : JSValue :=
  requestMessage (.str (units "tools/call"))
    (.obj [(units "name", .str (units "search_web")),
      (units "arguments", .obj [(units "query", .str (units "café"))])])

/-- The response `{"jsonrpc":"2.0","id":"1","result":{}}`. -/
def emptyResultResponse : JSValue :=
  .obj [(units "jsonrpc", .str (units "2.0")), (units "id", .str (units "1")),
    (units "result", .obj [])]

/-- The client state after `callMcpTool("search_web", { query: "x" })` on the
freshly loaded module: the call is pending. -/
def oneCallPending : Client :=
  (callMcpTool jsonStringify Client.init (.str (units "search_web"))
    (.obj [(units "query", .str (units "x"))])).1

/-- The response `{"jsonrpc":"2.0","id":"2","result":{}}`, whose id is not the
request's. -/
def otherIdResponse : JSValue :=
  .obj [(units "jsonrpc", .str (units "2.0")), (units "id", .str (units "2")),
    (units "result", .obj [])]

/-- The message `{"jsonrpc":"2.0","method":"ping"}`, which has no id. -/
def noIdMessage : JSValue :=
  .obj [(units "jsonrpc", .str (units "2.0")), (units "method", .str (units "ping"))]

/-- The response `{"jsonrpc":"2.0","id":"1","result":{"content":[{"type":"text","text":"café"}]}}`. -/
def cafeResponse : JSValue :=
  .obj [(units "jsonrpc", .str (units "2.0")), (units "id", .str (units "1")),
    (units "result", .obj [(units "content",
      .arr [.obj [(units "type", .str (units "text")), (units "text", .str (units "café"))]])])]

/-- The result `{"content":[{"type":"text","text":null}]}`. -/
def nullTextResult : JSValue :=
  .obj [(units "content", .arr [.obj [(units "type", .str (units "text")), (units "text", .null)]])]

/-- The result `{"content":[null,{"type":"text","text":"hi"}]}`. -/
def nullItemResult : JSValue :=
  .obj [(units "content",
    .arr [.null, .obj [(units "type", .str (units "text")), (units "text", .str (units "hi"))]])]

/-- The result `{"content":[{"type":"image"},{"type":"text","text":"hi"}]}`. -/
def imageThenTextResult : JSValue :=
  .obj [(units "content",
    .arr [.obj [(units "type", .str (units "image"))],
      .obj [(units "type", .str (units "text")), (units "text", .str (units "hi"))]])]

/-! ## One pass of the decoder loop -/

/-- One pass through the body of the `while (true)` loop of
`processStdoutBuffer`: `Sum.inl` holds the state the function returns with,
`Sum.inr` the state the next pass starts from. -/
def loopIteration (parse : JSString → Option JSValue) (s : Client) : Client ⊕ Client :=
  match indexOf (units "\r\n\r\n") s.stdoutBuffer with
  | none => .inl s
  | some headerEnd =>
    let header := slice s.stdoutBuffer 0 headerEnd
    match execContentLength header with
    | none => .inl { s with stdoutBuffer := [] }
    | some digits =>
      let length := parseInt10 digits
      let totalLength := headerEnd + 4 + length
      if s.stdoutBuffer.length < totalLength then .inl s
      else
        let jsonPayload := slice s.stdoutBuffer (headerEnd + 4) totalLength
        let s1 := { s with stdoutBuffer := sliceFrom s.stdoutBuffer totalLength }
        match parse jsonPayload with
        | some message => .inr (handleMessage s1 message)
        | none => .inr s1

/-! ## The tool `searchWeb` and the `tools/list` handler: `src/server/mcp-server.js` -/

/-- What `searchWeb` takes from its surroundings. `apiKey` is
`process.env.SERPAPI_KEY`, `none` for `undefined`. `encodeURIComponent` is the
built-in, which throws on a lone surrogate. `fetch` gives, for a URL, the error
the promise of `fetch(url)` rejects with, or else the outcome of
`response.json()`: the error it rejects with or the decoded value. `typeError`
is the error the engine throws when a property of `null` or `undefined` is read
or a value that is no function is called. `stringPositive` is the value of
`s > 0` for a string `s`. `stringLink` is the text a template literal gives for
the method `String.prototype.link`, which is what `result.link` is for a
string `result`. -/
structure SearchEnv where
  apiKey : Option JSString
  encodeURIComponent : JSString → Except JSError JSString
  fetch : JSString → Except JSError (Except JSError JSValue)
  typeError : JSError
  stringPositive : JSString → Bool
  stringLink : JSString

/-- The value of `v > 0` for a `v` whose conversion to a primitive does not
throw (`toStrThrows`): `undefined` and an object convert to NaN, `null` to 0,
`true` to 1, an array to the string of its elements joined by commas. -/
def greaterThanZero (env : SearchEnv) : JSValue → Bool
  | .undefined => false
  | .null => false
  | .bool b => b
  | .num n => decide (0 < n)
  | .str s => env.stringPositive s
  | .arr items => env.stringPositive (joinItems items)
  | .obj _ => false

/-- The text that a template literal gives for a value, or the `TypeError`
thrown when its string conversion throws. -/
def templateText (env : SearchEnv) (v : JSValue) : Except JSError JSString :=
  if toStrThrows v then .error env.typeError else .ok (toStr v)

/-- The text of `${result.link}` for an item `result` that is neither `null`
nor `undefined`, or the error thrown. -/
def linkText (env : SearchEnv) (result : JSValue) : Except JSError JSString :=
  match result with
  | .str _ => .ok env.stringLink
  | r => templateText env (r.get (units "link"))

/-- One call of the callback of `forEach`: the text appended to
`formattedResults` for the item `result` at `index`, or the error thrown: on an
item that is `null` or `undefined`, and on a title, link or snippet whose string
conversion throws. -/
def formatItem (env : SearchEnv) (result : JSValue) (index : Nat) : Except JSError JSString :=
  if result.isNullish then .error env.typeError
  else
    match templateText env (result.get (units "title")) with
    | .error e => .error e
    | .ok title =>
      match linkText env result with
      | .error e => .error e
      | .ok link =>
        match
          (if (result.get (units "snippet")).truthy then
            templateText env (result.get (units "snippet"))
           else .ok []) with
        | .error e => .error e
        | .ok snippet =>
          .ok (toDecimal (index + 1) ++ units ". " ++ title ++ units "\n" ++
            units "   📎 Source: " ++ link ++ units "\n" ++
            (if (result.get (units "snippet")).truthy then
              units "   " ++ snippet ++ units "\n"
             else []) ++
            units "\n")

/-- The callback of `forEach` applied to the items from index `index` on: the
text appended to `formattedResults`, or the first error thrown. -/
def formatItems (env : SearchEnv) : List JSValue → Nat → Except JSError JSString
  | [], _ => .ok []
  | result :: rest, index =>
    match formatItem env result index with
    | .error e => .error e
    | .ok text =>
      match formatItems env rest (index + 1) with
      | .error e => .error e
      | .ok more => .ok (text ++ more)

/-- The first `if` of the formatting: the text it appends for the value of
`results.organic_results`, or the error thrown. A non-empty string has a
positive `length` and no `forEach`; an object with a positive `length` has no
callable `slice`, and the comparison itself throws when its `length` does not
convert to a primitive. -/
def formatOrganic (env : SearchEnv) (organic : JSValue) : Except JSError JSString :=
  if !organic.truthy then .ok []
  else
    match organic with
    | .arr items =>
      if items.isEmpty then .ok []
      else
        match formatItems env (items.take 5) 0 with
        | .error e => .error e
        | .ok text => .ok (units "Top Results:\n" ++ text)
    | .str _ => .error env.typeError
    | .obj props =>
      if toStrThrows ((JSValue.obj props).get (units "length")) then .error env.typeError
      else if greaterThanZero env ((JSValue.obj props).get (units "length")) then
        .error env.typeError
      else .ok []
    | _ => .ok []

/-- The second `if` of the formatting: the text it appends for the value of
`results.answer_box`, or the error thrown when the string conversion of the
answer or of the link throws. -/
def formatAnswerBox (env : SearchEnv) (box : JSValue) : Except JSError JSString :=
  if box.truthy && (box.get (units "answer")).truthy then
    match templateText env (box.get (units "answer")) with
    | .error e => .error e
    | .ok answer =>
      match
        (if (box.get (units "link")).truthy then templateText env (box.get (units "link"))
         else .ok []) with
      | .error e => .error e
      | .ok link =>
        .ok (units "Direct Answer: " ++ answer ++ units "\n" ++
          (if (box.get (units "link")).truthy then
            units "📎 Source: " ++ link ++ units "\n"
           else []) ++
          units "\n")
  else .ok []

/-- The value of `formattedResults` at the `return` of the `try` block, or the
error thrown while building it. -/
def formatResults (env : SearchEnv) (query : JSString) (results : JSValue) :
    Except JSError JSString :=
  if results.isNullish then .error env.typeError
  else
    match formatOrganic env (results.get (units "organic_results")) with
    | .error e => .error e
    | .ok organic =>
      match formatAnswerBox env (results.get (units "answer_box")) with
      | .error e => .error e
      | .ok answer =>
        .ok (units "Web Search Results for: " ++ query ++ units "\n\n" ++ organic ++ answer)

/-- The URL that `searchWeb` fetches. -/
def searchUrl (encoded apiKey : JSString) : JSString :=
  units "https://serpapi.com/search.json?q=" ++ encoded ++ units "&api_key=" ++ apiKey

/-- One run of the `try` block of `searchWeb`: the URLs passed to `fetch`, in
order, and the formatted text or the error thrown. -/
def searchWebTry (env : SearchEnv) (query : JSString) : List JSString × Except JSError JSString :=
  match env.apiKey with
  | none => ([], .error ⟨units "SERPAPI_KEY not found in environment variables"⟩)
  | some apiKey =>
    if apiKey.isEmpty then
      ([], .error ⟨units "SERPAPI_KEY not found in environment variables"⟩)
    else
      match env.encodeURIComponent query with
      | .error e => ([], .error e)
      | .ok encoded =>
        let url := searchUrl encoded apiKey
        match env.fetch url with
        | .error e => ([url], .error e)
        | .ok (.error e) => ([url], .error e)
        | .ok (.ok results) => ([url], formatResults env query results)

/-- A tool result with one text item and no error flag. -/
def textResult (text : JSString) : JSValue :=
  .obj [(units "content", .arr [.obj [(units "type", .str (units "text")),
    (units "text", .str text)]])]

/-- One run of `searchWeb`: the value its promise resolves with and the URLs
passed to `fetch`. -/
structure SearchRun where
  result : JSValue
  fetches : List JSString
deriving DecidableEq

/-- The function `searchWeb(query)`: the `catch` block turns every error thrown
in the `try` block into an error-flagged result. -/
def searchWeb (env : SearchEnv) (query : JSString) : SearchRun :=
  match searchWebTry env query with
  | (fetches, .ok text) => ⟨textResult text, fetches⟩
  | (fetches, .error e) =>
    ⟨errorResult (units "Web search encountered an error: " ++ e.message), fetches⟩

/-- The value returned by the handler registered for `ListToolsRequestSchema`. -/
def listToolsHandler : JSValue :=
  .obj [(units "tools", .arr [.obj [
    (units "name", .str (units "search_web")),
    (units "description", .str (units "Search the web using Google via SerpAPI. Use this tool when you need current information, recent events, or information not available in the uploaded document. The query should be a clear search string.")),
    (units "inputSchema", .obj [
      (units "type", .str (units "object")),
      (units "properties", .obj [(units "query", .obj [
        (units "type", .str (units "string")),
        (units "description", .str (units "The search query to execute"))])]),
      (units "required", .arr [.str (units "query")])])]])]

/-- The names of the tools in a `tools/list` result. -/
def advertisedNames (listResult : JSValue) : List JSValue :=
  match listResult.get (units "tools") with
  | .arr tools => tools.map (fun tool => tool.get (units "name"))
  | _ => []

/-- The input schema that a `tools/list` result gives for the tool `name`. -/
def advertisedSchema (listResult : JSValue) (name : JSValue) : JSValue :=
  match listResult.get (units "tools") with
  | .arr tools =>
    match tools.find? (fun tool => decide (tool.get (units "name") = name)) with
    | some tool => tool.get (units "inputSchema")
    | none => .undefined
  | _ => .undefined

/-- Whether a value has the type that a schema names with `"string"` or
`"object"`; any other type name accepts nothing here. -/
def hasSchemaType (typeName : JSValue) (v : JSValue) : Bool :=
  if typeName = .str (units "string") then v.typeofString
  else if typeName = .str (units "object") then
    match v with
    | .obj _ => true
    | _ => false
  else false

/-- Reading of the advertised schema, after the claim's words: the arguments
satisfy the schema when they have the schema's type and, for every name in the
`required` list, hold a property of that name whose value has the type that
`properties` gives for it. -/
def satisfiesSchema (schema args : JSValue) : Bool :=
  hasSchemaType (schema.get (units "type")) args &&
  match schema.get (units "required") with
  | .arr required =>
    required.all (fun key =>
      match key with
      | .str k =>
        args.hasProp k &&
          hasSchemaType (((schema.get (units "properties")).get k).get (units "type")) (args.get k)
      | _ => false)
  | _ => true

/-! ## Reference instance of `encodeURIComponent` and sample surroundings -/

/-- Upper-case hexadecimal digit. -/
def upperHexDigit (n : Nat) : Nat := if n < 10 then 48 + n else 55 + n

/-- The escape `%XX` of a byte. -/
def percentByte (b : Nat) : JSString := [37, upperHexDigit (b / 16), upperHexDigit (b % 16)]

/-- UTF-8 bytes of a code point. -/
def utf8Bytes (cp : Nat) : List Nat :=
  if cp < 0x80 then [cp]
  else if cp < 0x800 then [0xC0 + cp / 64, 0x80 + cp % 64]
  else if cp < 0x10000 then [0xE0 + cp / 4096, 0x80 + cp / 64 % 64, 0x80 + cp % 64]
  else [0xF0 + cp / 262144, 0x80 + cp / 4096 % 64, 0x80 + cp / 64 % 64, 0x80 + cp % 64]

/-- The characters that `encodeURIComponent` leaves as they are: letters,
digits and `- _ . ! ~ * ' ( )`. -/
def isUriUnreserved (c : Nat) : Bool :=
  (decide (65 ≤ c) && decide (c ≤ 90)) || (decide (97 ≤ c) && decide (c ≤ 122)) ||
  (decide (48 ≤ c) && decide (c ≤ 57)) || c == 45 || c == 95 || c == 46 || c == 33 ||
  c == 126 || c == 42 || c == 39 || c == 40 || c == 41

/-- How `encodeURIComponent` writes a code unit that is no surrogate. -/
def encodeUnit (c : Nat) : JSString :=
  if isUriUnreserved c then [c] else (utf8Bytes c).flatMap percentByte

/-- Reference instance of `encodeURIComponent`: a lone surrogate throws the
`URIError`. -/
def encodeURIComponentRef : JSString → Except JSError JSString
  | [] => .ok []
  | [c] =>
    if isHighSurrogate c || isLowSurrogate c then .error ⟨units "URI malformed"⟩
    else .ok (encodeUnit c)
  | c :: d :: rest =>
    if isHighSurrogate c then
      if isLowSurrogate d then
        match encodeURIComponentRef rest with
        | .error e => .error e
        | .ok more =>
          .ok ((utf8Bytes (0x10000 + (c - 0xD800) * 0x400 + (d - 0xDC00))).flatMap percentByte
            ++ more)
      else .error ⟨units "URI malformed"⟩
    else if isLowSurrogate c then .error ⟨units "URI malformed"⟩
    else
      match encodeURIComponentRef (d :: rest) with
      | .error e => .error e
      | .ok more => .ok (encodeUnit c ++ more)

/-- Surroundings in which `SERPAPI_KEY` is `abc` and every `fetch` rejects with
the message `fetch failed`. -/
def fetchFailsEnv : SearchEnv :=
  { apiKey := some (units "abc"),
    encodeURIComponent := encodeURIComponentRef,
    fetch := fun _ => .error ⟨units "fetch failed"⟩,
    typeError := ⟨units "Cannot read properties of null"⟩,
    stringPositive := fun _ => false,
    stringLink := units "function link() \x7b [native code] \x7d" }

/-- Surroundings in which `SERPAPI_KEY` is not set. -/
def noKeyEnv : SearchEnv := { fetchFailsEnv with apiKey := none }

/-- Surroundings in which `SERPAPI_KEY` is `abc` and every `fetch` gives a
response whose body decodes to one organic result and an answer box. -/
def oneResultEnv : SearchEnv :=
  { fetchFailsEnv with
    fetch := fun _ => .ok (.ok (.obj [
      (units "organic_results", .arr [.obj [(units "title", .str (units "Lean")),
        (units "link", .str (units "https://lean-lang.org")),
        (units "snippet", .str (units "A prover"))]]),
      (units "answer_box", .obj [(units "answer", .num 42)])])) }

/-- The response `{"jsonrpc":"2.0","id":"1","error":{"code":-32000,"message":"boom"}}`. -/
def boomResponse : JSValue :=
  .obj [(units "jsonrpc", .str (units "2.0")), (units "id", .str (units "1")),
    (units "error", .obj [(units "code", .num (-32000)), (units "message", .str (units "boom"))])]

/-- The response `{"jsonrpc":"2.0","id":"1","error":{"message":{"toString":1}}}`:
its `error.message` is an object with an own property `toString`. -/
def ownToStringResponse : JSValue :=
  .obj [(units "jsonrpc", .str (units "2.0")), (units "id", .str (units "1")),
    (units "error", .obj [(units "message", .obj [(units "toString", .num 1)])])]

/-- The client state after the first call was resolved by its response
`{"jsonrpc":"2.0","id":"1","result":{}}` and a second
`callMcpTool("search_web", { query: "y" })` was accepted: the second call,
promise 1, is pending. -/
def secondCallPending : Client :=
  (callMcpTool jsonStringify (handleMessage oneCallPending emptyResultResponse)
    (.str (units "search_web")) (.obj [(units "query", .str (units "y"))])).1

/-! ## Lemmas on strings and on the header pattern -/

theorem units_separator : units "\r\n\r\n" = [13, 10, 13, 10] := by decide

theorem units_pattern :
    units "Content-Length:" =
      [67, 111, 110, 116, 101, 110, 116, 45, 76, 101, 110, 103, 116, 104, 58] := by decide

theorem units_headerName :
    units "Content-Length: " =
      [67, 111, 110, 116, 101, 110, 116, 45, 76, 101, 110, 103, 116, 104, 58, 32] := by decide

theorem unitBytes_pos (c : Nat) : 1 ≤ unitBytes c := by
  unfold unitBytes
  split
  · exact Nat.le_refl 1
  · split <;> omega

/-- The UTF-8 byte length of a string is at least its number of code units. -/
theorem length_le_utf8ByteLength : ∀ s : JSString, s.length ≤ utf8ByteLength s
  | [] => by simp [utf8ByteLength]
  | [c] => by
    have := unitBytes_pos c
    simpa [utf8ByteLength] using this
  | c :: d :: rest => by
    have h1 := length_le_utf8ByteLength rest
    have h2 := length_le_utf8ByteLength (d :: rest)
    have h3 := unitBytes_pos c
    simp only [utf8ByteLength, List.length_cons] at h2 ⊢
    split <;> omega

theorem foldl_decimalAux (f : Nat → Nat → Nat)
    (hf : ∀ a d, d < 10 → f a (48 + d) = a * 10 + d) :
    ∀ (fuel n : Nat) (acc : JSString), n < fuel →
      (decimalAux fuel n acc).foldl f 0 = acc.foldl f n := by
  intro fuel
  induction fuel with
  | zero => intro n acc h; omega
  | succ k ih =>
    intro n acc h
    unfold decimalAux
    split
    · next hn => simp [List.foldl_cons, hf 0 n hn]
    · next hn =>
      have hlt : n / 10 < k := by omega
      rw [ih (n / 10) _ hlt, List.foldl_cons, hf _ _ (Nat.mod_lt n (by decide))]
      congr 1
      omega

/-- Reading back the decimal digits of a number gives the number. -/
theorem parseInt10_toDecimal (n : Nat) : parseInt10 (toDecimal n) = n := by
  unfold parseInt10 toDecimal
  rw [foldl_decimalAux _ (fun a d _ => by simp) (n + 1) n [] (Nat.lt_succ_self n)]
  rfl

theorem decimalAux_digits :
    ∀ (fuel n : Nat) (acc : JSString), (∀ c ∈ acc, isDigit c = true) →
      ∀ c ∈ decimalAux fuel n acc, isDigit c = true := by
  intro fuel
  induction fuel with
  | zero => intro n acc h c hc; exact h c (by simpa [decimalAux] using hc)
  | succ k ih =>
    intro n acc h c hc
    unfold decimalAux at hc
    split at hc
    · next hn =>
      rcases List.mem_cons.mp hc with rfl | hc
      · simp [isDigit]; omega
      · exact h c hc
    · next hn =>
      refine ih (n / 10) _ ?_ c hc
      intro d hd
      rcases List.mem_cons.mp hd with rfl | hd
      · have := Nat.mod_lt n (show 0 < 10 by decide)
        simp [isDigit]; omega
      · exact h d hd

theorem toDecimal_digits (n : Nat) : ∀ c ∈ toDecimal n, isDigit c = true :=
  decimalAux_digits (n + 1) n [] (by simp)

theorem decimalAux_ne_nil (fuel n : Nat) (acc : JSString) (h : 0 < fuel) :
    decimalAux fuel n acc ≠ [] := by
  induction fuel generalizing n acc with
  | zero => omega
  | succ k ih =>
    unfold decimalAux
    split
    · simp
    · cases k with
      | zero => simp [decimalAux]
      | succ j => exact ih _ _ (Nat.succ_pos j)

theorem toDecimal_ne_nil (n : Nat) : toDecimal n ≠ [] :=
  decimalAux_ne_nil (n + 1) n [] (Nat.succ_pos n)

theorem isDigit_not_whiteSpace (c : Nat) (h : isDigit c = true) : isWhiteSpace c = false := by
  simp only [isDigit, Bool.and_eq_true, decide_eq_true_eq] at h
  simp only [isWhiteSpace, Bool.or_eq_false_iff, beq_eq_false_iff_ne, ne_eq, Bool.and_eq_false_imp,
    decide_eq_true_eq, decide_eq_false_iff_not]
  omega

/-- On the literal header name followed by a non-empty digit run, the pattern
matches at the start and captures the digit run. -/
theorem matchHere_header (ds : JSString) (hne : ds ≠ []) (hd : ∀ c ∈ ds, isDigit c = true) :
    matchHere (units "Content-Length: " ++ ds) = some ds := by
  have htake : ds.takeWhile isDigit = ds := List.takeWhile_eq_self_iff.mpr hd
  obtain ⟨d, rest, rfl⟩ := List.exists_cons_of_ne_nil hne
  have hws : isWhiteSpace d = false := isDigit_not_whiteSpace d (hd d (by simp))
  have h32 : isWhiteSpace 32 = true := by decide
  unfold matchHere
  rw [units_pattern, units_headerName]
  simp only [List.cons_append, List.nil_append, matchLiteral, canonicalize]
  have hdrop : List.dropWhile isWhiteSpace (32 :: d :: rest) = d :: rest := by
    simp [List.dropWhile_cons, h32, hws]
  simp [hdrop, htake]

theorem execContentLength_header (ds : JSString) (hne : ds ≠ [])
    (hd : ∀ c ∈ ds, isDigit c = true) :
    execContentLength (units "Content-Length: " ++ ds) = some ds := by
  have h := matchHere_header ds hne hd
  rw [units_headerName] at h ⊢
  simp only [List.cons_append] at h ⊢
  unfold execContentLength
  rw [h]

theorem header_no_cr (n : Nat) : 13 ∉ units "Content-Length: " ++ toDecimal n := by
  intro h
  rcases List.mem_append.mp h with h | h
  · rw [units_headerName] at h
    simp at h
  · have := toDecimal_digits n 13 h
    simp [isDigit] at this

/-- The separator is found right after a block without carriage return. -/
theorem indexOf_separator (hd rest : JSString) (h : 13 ∉ hd) :
    indexOf [13, 10, 13, 10] (hd ++ 13 :: 10 :: 13 :: 10 :: rest) = some hd.length := by
  induction hd with
  | nil => simp [indexOf, startsWith]
  | cons c cs ih =>
    have hc : c ≠ 13 := fun e => h (by simp [e])
    have hcs : 13 ∉ cs := fun e => h (by simp [e])
    have hne : (13 == c) = false := by simpa using fun e : 13 = c => hc e.symm
    simp [indexOf, startsWith, hne, ih hcs]

/-- No separator is found in a proper prefix of such a block followed by the
separator. -/
theorem indexOf_separator_partial (hd : JSString) (h : 13 ∉ hd) :
    ∀ k, k < hd.length + 4 → indexOf [13, 10, 13, 10] ((hd ++ [13, 10, 13, 10]).take k) = none := by
  induction hd with
  | nil =>
    intro k hk
    have hk4 : k < 4 := by simpa using hk
    interval_cases k <;> simp [indexOf, startsWith]
  | cons c cs ih =>
    intro k hk
    have hc : c ≠ 13 := fun e => h (by simp [e])
    have hcs : 13 ∉ cs := fun e => h (by simp [e])
    have hne : (13 == c) = false := by simpa using fun e : 13 = c => hc e.symm
    cases k with
    | zero => simp [indexOf, startsWith]
    | succ j =>
      have hj : j < cs.length + 4 := by simp at hk; omega
      simp [indexOf, startsWith, hne, ih hcs j hj]

theorem startsWith_append (p a b : JSString) (h : startsWith p a = true) :
    startsWith p (a ++ b) = true := by
  induction p generalizing a with
  | nil => cases a <;> cases b <;> simp [startsWith]
  | cons x xs ih =>
    cases a with
    | nil => simp [startsWith] at h
    | cons y ys =>
      simp only [startsWith, Bool.and_eq_true] at h
      simp only [List.cons_append, startsWith, Bool.and_eq_true]
      exact ⟨h.1, ih ys h.2⟩

theorem startsWith_append_false (p a b : JSString) (h : startsWith p a = false)
    (hl : p.length ≤ a.length) : startsWith p (a ++ b) = false := by
  induction p generalizing a with
  | nil => cases a <;> simp [startsWith] at h
  | cons x xs ih =>
    cases a with
    | nil => simp at hl
    | cons y ys =>
      simp only [startsWith, Bool.and_eq_false_iff] at h
      simp only [List.cons_append, startsWith, Bool.and_eq_false_iff]
      rcases h with h | h
      · exact Or.inl h
      · exact Or.inr (ih ys h (by simpa using hl))

theorem startsWith_length (p a : JSString) (h : startsWith p a = true) :
    p.length ≤ a.length := by
  induction p generalizing a with
  | nil => simp
  | cons x xs ih =>
    cases a with
    | nil => simp [startsWith] at h
    | cons y ys =>
      simp only [startsWith, Bool.and_eq_true] at h
      simpa using ih ys h.2

theorem indexOf_length (p a : JSString) (i : Nat) (h : indexOf p a = some i) :
    i + p.length ≤ a.length := by
  induction a generalizing i with
  | nil =>
    simp only [indexOf] at h
    split at h
    · next hp =>
      have := startsWith_length p [] hp
      cases h
      simpa using this
    · cases h
  | cons c cs ih =>
    simp only [indexOf] at h
    split at h
    · next hp =>
      have := startsWith_length p (c :: cs) hp
      cases h
      simpa using this
    · cases hi : indexOf p cs with
      | none => rw [hi] at h; cases h
      | some j =>
        rw [hi] at h
        cases h
        have := ih j hi
        simp only [List.length_cons]
        omega

/-- An occurrence found in a string is still the first one after appending. -/
theorem indexOf_append (p a b : JSString) (i : Nat) (h : indexOf p a = some i) :
    indexOf p (a ++ b) = some i := by
  induction a generalizing i with
  | nil =>
    simp only [indexOf] at h
    split at h
    · next hp =>
      cases p with
      | nil =>
        cases b with
        | nil => simpa [indexOf, startsWith] using h
        | cons y ys => simpa [indexOf, startsWith] using h
      | cons x xs => simp [startsWith] at hp
    · cases h
  | cons c cs ih =>
    simp only [indexOf] at h
    show indexOf p (c :: (cs ++ b)) = some i
    simp only [indexOf]
    split at h
    · next hp =>
      have := startsWith_append p (c :: cs) b hp
      simp only [List.cons_append] at this
      rw [if_pos this]
      exact h
    · next hp =>
      cases hi : indexOf p cs with
      | none => rw [hi] at h; cases h
      | some j =>
        have hlen := indexOf_length p cs j hi
        have hp2 : startsWith p (c :: cs) = false := by simpa using hp
        have := startsWith_append_false p (c :: cs) b hp2 (by simp only [List.length_cons]; omega)
        simp only [List.cons_append] at this
        rw [this, ih j hi]
        rw [hi] at h
        simpa using h

/-! ## Lemmas on the decoder loop -/

theorem handleMessage_stdoutBuffer (s : Client) (msg : JSValue) :
    (handleMessage s msg).stdoutBuffer = s.stdoutBuffer := by
  unfold handleMessage
  simp only []
  split
  · rfl
  · cases s.pending with
    | none => rfl
    | some p =>
      simp only []
      split
      · split <;> rfl
      · split <;> rfl

/-- With more fuel than the buffer has code units the loop returns. -/
theorem processLoop_isSome (parse : JSString → Option JSValue) :
    ∀ (fuel : Nat) (s : Client), s.stdoutBuffer.length < fuel →
      (processLoop parse fuel s).isSome = true := by
  intro fuel
  induction fuel with
  | zero => intro s h; omega
  | succ k ih =>
    intro s h
    unfold processLoop
    cases hi : indexOf (units "\r\n\r\n") s.stdoutBuffer with
    | none => simp
    | some headerEnd =>
      simp only []
      cases hm : execContentLength (slice s.stdoutBuffer 0 headerEnd) with
      | none => simp
      | some digits =>
        simp only []
        split
        · simp
        · next hlen =>
          have hdrop : (sliceFrom s.stdoutBuffer (headerEnd + 4 + parseInt10 digits)).length < k := by
            simp only [sliceFrom, List.length_drop]
            omega
          cases parse (slice s.stdoutBuffer (headerEnd + 4) (headerEnd + 4 + parseInt10 digits)) with
          | none => exact ih _ hdrop
          | some message =>
            refine ih _ ?_
            rw [handleMessage_stdoutBuffer]
            exact hdrop

/-- The function `processStdoutBuffer` returns for every buffer. -/
theorem processStdoutBuffer_returns (parse : JSString → Option JSValue) (s : Client) :
    ∃ s2, processStdoutBuffer parse s = some s2 :=
  Option.isSome_iff_exists.mp (processLoop_isSome parse _ s (Nat.lt_succ_self _))

/-- The result of the loop does not depend on the fuel, once there is more of
it than the buffer has code units. -/
theorem processLoop_fuel (parse : JSString → Option JSValue) :
    ∀ (fuel fuel2 : Nat) (s : Client), s.stdoutBuffer.length < fuel →
      s.stdoutBuffer.length < fuel2 → processLoop parse fuel s = processLoop parse fuel2 s := by
  intro fuel
  induction fuel with
  | zero => intro fuel2 s h; omega
  | succ k ih =>
    intro fuel2 s h h2
    cases fuel2 with
    | zero => omega
    | succ k2 =>
      unfold processLoop
      cases hi : indexOf (units "\r\n\r\n") s.stdoutBuffer with
      | none => rfl
      | some headerEnd =>
        simp only []
        cases hm : execContentLength (slice s.stdoutBuffer 0 headerEnd) with
        | none => rfl
        | some digits =>
          simp only []
          split
          · rfl
          · next hlen =>
            have hdrop : (sliceFrom s.stdoutBuffer (headerEnd + 4 + parseInt10 digits)).length < k := by
              simp only [sliceFrom, List.length_drop]
              omega
            have hdrop2 :
                (sliceFrom s.stdoutBuffer (headerEnd + 4 + parseInt10 digits)).length < k2 := by
              simp only [sliceFrom, List.length_drop]
              omega
            cases parse (slice s.stdoutBuffer (headerEnd + 4) (headerEnd + 4 + parseInt10 digits)) with
            | none => exact ih k2 _ hdrop hdrop2
            | some message =>
              refine ih k2 _ ?_ ?_
              · rw [handleMessage_stdoutBuffer]; exact hdrop
              · rw [handleMessage_stdoutBuffer]; exact hdrop2

/-- A buffer without separator is left as it is. -/
theorem processStdoutBuffer_noSeparator (parse : JSString → Option JSValue) (s : Client)
    (h : indexOf (units "\r\n\r\n") s.stdoutBuffer = none) :
    processStdoutBuffer parse s = some s := by
  unfold processStdoutBuffer processLoop
  rw [h]

theorem encodeFrame_eq (json : JSString) :
    encodeFrame json = frameBuffer (utf8ByteLength json) json := rfl

theorem frameBuffer_length (n : Nat) (body : JSString) :
    (frameBuffer n body).length = (units "Content-Length: " ++ toDecimal n).length + 4 + body.length := by
  simp [frameBuffer, units_separator]
  omega

theorem frameBuffer_indexOf (n : Nat) (body : JSString) :
    indexOf (units "\r\n\r\n") (frameBuffer n body) =
      some (units "Content-Length: " ++ toDecimal n).length := by
  have h := indexOf_separator _ body (header_no_cr n)
  unfold frameBuffer
  rw [units_separator]
  simpa using h

theorem processLoop_succ (parse : JSString → Option JSValue) (fuel : Nat) (s : Client) :
    processLoop parse (fuel + 1) s =
      match indexOf (units "\r\n\r\n") s.stdoutBuffer with
      | none => some s
      | some headerEnd =>
        match execContentLength (slice s.stdoutBuffer 0 headerEnd) with
        | none => some { s with stdoutBuffer := [] }
        | some digits =>
          if s.stdoutBuffer.length < headerEnd + 4 + parseInt10 digits then some s
          else
            match parse (slice s.stdoutBuffer (headerEnd + 4) (headerEnd + 4 + parseInt10 digits)) with
            | some message =>
              processLoop parse fuel (handleMessage
                { s with stdoutBuffer := sliceFrom s.stdoutBuffer (headerEnd + 4 + parseInt10 digits) }
                message)
            | none =>
              processLoop parse fuel
                { s with stdoutBuffer := sliceFrom s.stdoutBuffer (headerEnd + 4 + parseInt10 digits) } := by
  rw [processLoop]

theorem slice_head (hd x body : JSString) : slice (hd ++ x ++ body) 0 hd.length = hd := by
  rw [slice, List.append_assoc, List.take_left]
  rfl

theorem slice_body (hd x body : JSString) (n : Nat) (hx : x.length = 4) :
    slice (hd ++ x ++ body) (hd.length + 4) (hd.length + 4 + n) = body.take n := by
  have l : (hd ++ x).length = hd.length + 4 := by rw [List.length_append, hx]
  rw [slice, List.drop_take, List.drop_left' l]
  congr 1
  omega

theorem sliceFrom_body (hd x body : JSString) (n : Nat) (hx : x.length = 4) :
    sliceFrom (hd ++ x ++ body) (hd.length + 4 + n) = body.drop n := by
  have l : (hd ++ x).length = hd.length + 4 := by rw [List.length_append, hx]
  rw [sliceFrom, ← List.drop_drop, List.drop_left' l]

/-- One iteration of the loop on a buffer that starts with a well-formed
header: it waits while the body is shorter than the declared length, and
otherwise takes that many code units as payload. -/
theorem processLoop_frameBuffer (parse : JSString → Option JSValue) (fuel n : Nat)
    (body : JSString) (s : Client) (hs : s.stdoutBuffer = frameBuffer n body) :
    processLoop parse (fuel + 1) s =
      if body.length < n then some s
      else
        match parse (body.take n) with
        | some message =>
          processLoop parse fuel (handleMessage { s with stdoutBuffer := body.drop n } message)
        | none => processLoop parse fuel { s with stdoutBuffer := body.drop n } := by
  have hidx := frameBuffer_indexOf n body
  have hlen := frameBuffer_length n body
  have hsep : (units "\r\n\r\n").length = 4 := by decide
  have hhead := slice_head (units "Content-Length: " ++ toDecimal n) (units "\r\n\r\n") body
  have hpay := slice_body (units "Content-Length: " ++ toDecimal n) (units "\r\n\r\n") body n hsep
  have hrest := sliceFrom_body (units "Content-Length: " ++ toDecimal n) (units "\r\n\r\n") body n hsep
  have hexec := execContentLength_header (toDecimal n) (toDecimal_ne_nil n) (toDecimal_digits n)
  rw [processLoop_succ, hs, hidx]
  simp only []
  unfold frameBuffer at hlen ⊢
  rw [hhead, hexec]
  simp only [parseInt10_toDecimal, hpay, hrest, hlen]
  by_cases hb : body.length < n
  · rw [if_pos hb, if_pos (by omega)]
  · rw [if_neg hb, if_neg (by omega)]

/-! ## Frames fed to the decoder -/

/-- A buffer that holds a well-formed header and fewer body units than the
header declares is left as it is. -/
theorem processStdoutBuffer_wait (parse : JSString → Option JSValue) (s : Client) (n : Nat)
    (body : JSString) (hs : s.stdoutBuffer = frameBuffer n body) (hb : body.length < n) :
    processStdoutBuffer parse s = some s := by
  unfold processStdoutBuffer
  rw [processLoop_frameBuffer parse _ n body s hs, if_pos hb]

/-- A buffer that holds exactly one frame whose declared length is the number
of body units: the body is parsed, the message handled and the buffer emptied. -/
theorem processStdoutBuffer_frame (parse : JSString → Option JSValue) (s : Client)
    (body : JSString) (hs : s.stdoutBuffer = frameBuffer body.length body) :
    processStdoutBuffer parse s =
      match parse body with
      | some message => some (handleMessage { s with stdoutBuffer := [] } message)
      | none => some { s with stdoutBuffer := [] } := by
  have hpos : s.stdoutBuffer.length = (s.stdoutBuffer.length - 1) + 1 := by
    rw [hs, frameBuffer_length]
    omega
  unfold processStdoutBuffer
  rw [processLoop_frameBuffer parse _ body.length body s hs, if_neg (Nat.lt_irrefl _),
    List.take_length, List.drop_length, hpos]
  cases parse body with
  | none => simp [processLoop_succ, indexOf, startsWith, units_separator]
  | some message =>
    simp only []
    rw [processLoop_succ, handleMessage_stdoutBuffer]
    simp [indexOf, startsWith, units_separator]

/-! ## Frames with ASCII and with non-ASCII JSON text -/

/-- An ASCII string has as many UTF-8 bytes as code units. -/
theorem utf8ByteLength_ascii : ∀ s : JSString, (∀ c ∈ s, c < 128) → utf8ByteLength s = s.length
  | [], _ => rfl
  | [c], h => by
    have hc : c < 128 := h c (by simp)
    simp [utf8ByteLength, unitBytes, hc]
  | c :: d :: rest, h => by
    have hc : c < 128 := h c (by simp)
    have ih := utf8ByteLength_ascii (d :: rest) (fun x hx => h x (by simp [hx]))
    have hs : isHighSurrogate c = false := by
      simp only [isHighSurrogate, Bool.and_eq_false_iff, decide_eq_false_iff_not]
      omega
    simp only [utf8ByteLength, hs, Bool.false_and, Bool.false_eq_true, if_false, unitBytes,
      if_pos hc, ih, List.length_cons]
    omega

theorem handleMessage_withBuffer (s : Client) (msg : JSValue) (b : JSString) :
    handleMessage { s with stdoutBuffer := b } msg =
      { handleMessage s msg with stdoutBuffer := b } := by
  unfold handleMessage
  simp only []
  split
  · rfl
  · cases s.pending with
    | none => rfl
    | some p =>
      simp only []
      split
      · split <;> rfl
      · split <;> rfl

/-- Round trip on ASCII: when the JSON text of `m` is ASCII and `JSON.parse`
gives `m` back from it, the frame of `m` fed to a client with empty buffer is
decoded to exactly `m`, which is handled, and the buffer ends empty. -/
theorem onData_frame_ascii (parse : JSString → Option JSValue) (stringify : JSValue → JSString)
    (s : Client) (m : JSValue) (hs : s.stdoutBuffer = [])
    (hascii : ∀ c ∈ stringify m, c < 128) (hparse : parse (stringify m) = some m) :
    onData parse s (encodeFrame (stringify m)) = some (handleMessage s m) ∧
    (handleMessage s m).stdoutBuffer = [] ∧
    (handleMessage s m).handled = s.handled ++ [m] := by
  have hlen := utf8ByteLength_ascii _ hascii
  have hs2 : ({ s with stdoutBuffer := [] } : Client) = s := by
    cases s
    simp only [Client.mk.injEq, and_true, true_and] at hs ⊢
    exact hs.symm
  refine ⟨?_, by rw [handleMessage_stdoutBuffer, hs], ?_⟩
  · unfold onData
    rw [hs, List.nil_append, encodeFrame_eq, hlen,
      processStdoutBuffer_frame parse _ (stringify m) rfl, hparse]
    simp only []
    rw [hs2]
  · unfold handleMessage
    simp only []
    split
    · rfl
    · cases s.pending with
      | none => rfl
      | some p =>
        simp only []
        split
        · split <;> rfl
        · split <;> rfl

/-- Batching on ASCII: when the JSON texts of `m1` and `m2` are ASCII and
`JSON.parse` gives the messages back, the two frames concatenated and fed in one
`data` event to a client with empty buffer are decoded within that one call:
`m1` is handled, then `m2`, and the buffer ends empty. -/
theorem onData_two_frames_ascii (parse : JSString → Option JSValue)
    (stringify : JSValue → JSString) (s : Client) (m1 m2 : JSValue) (hs : s.stdoutBuffer = [])
    (hascii1 : ∀ c ∈ stringify m1, c < 128) (hparse1 : parse (stringify m1) = some m1)
    (hascii2 : ∀ c ∈ stringify m2, c < 128) (hparse2 : parse (stringify m2) = some m2) :
    onData parse s (encodeFrame (stringify m1) ++ encodeFrame (stringify m2)) =
      some (handleMessage (handleMessage s m1) m2) ∧
    (handleMessage (handleMessage s m1) m2).stdoutBuffer = [] := by
  have hlen1 := utf8ByteLength_ascii _ hascii1
  have hlen2 := utf8ByteLength_ascii _ hascii2
  have hs2 : ({ s with stdoutBuffer := [] } : Client) = s := by
    cases s
    simp only [Client.mk.injEq, and_true, true_and] at hs ⊢
    exact hs.symm
  refine ⟨?_, by rw [handleMessage_stdoutBuffer, handleMessage_stdoutBuffer, hs]⟩
  have hbuf : encodeFrame (stringify m1) ++ encodeFrame (stringify m2) =
      frameBuffer (stringify m1).length (stringify m1 ++ encodeFrame (stringify m2)) := by
    rw [encodeFrame_eq, hlen1, frameBuffer, frameBuffer, List.append_assoc]
  have hpos : 0 < (encodeFrame (stringify m1)).length := by
    rw [encodeFrame_eq, frameBuffer_length]
    omega
  unfold onData processStdoutBuffer
  rw [hs, List.nil_append]
  simp only []
  rw [processLoop_frameBuffer parse _ _ _ _ hbuf,
    if_neg (by rw [List.length_append]; omega), List.take_left, List.drop_left, hparse1]
  simp only []
  rw [handleMessage_withBuffer, processLoop_fuel parse _
    ((encodeFrame (stringify m2)).length + 1) _
    (by simp only [List.length_append]; omega) (Nat.lt_succ_self _)]
  have h2 := processStdoutBuffer_frame parse
    { handleMessage s m1 with stdoutBuffer := encodeFrame (stringify m2) } (stringify m2)
    (by rw [encodeFrame_eq, hlen2])
  unfold processStdoutBuffer at h2
  rw [h2, hparse2]
  simp only []
  have hs3 : ({ handleMessage s m1 with stdoutBuffer := [] } : Client) = handleMessage s m1 := by
    have := handleMessage_stdoutBuffer s m1
    rw [hs] at this
    cases hm : handleMessage s m1
    rw [hm] at this
    simp only [Client.mk.injEq, and_true, true_and] at this ⊢
    exact this.symm
  rw [hs3]

/-- A string with a code unit of 128 or above has more UTF-8 bytes than code
units. -/
theorem length_lt_utf8ByteLength : ∀ s : JSString, (∃ c ∈ s, 128 ≤ c) →
    s.length < utf8ByteLength s
  | [], h => by
    obtain ⟨c, hc, _⟩ := h
    simp at hc
  | [c], h => by
    obtain ⟨x, hx, h128⟩ := h
    have e : x = c := by simpa using hx
    subst e
    unfold utf8ByteLength unitBytes
    rw [if_neg (by omega)]
    split <;> simp
  | c :: d :: rest, h => by
    have h1 := length_le_utf8ByteLength rest
    have h2 := length_le_utf8ByteLength (d :: rest)
    have h3 := unitBytes_pos c
    simp only [utf8ByteLength, List.length_cons] at h2 ⊢
    split
    · omega
    · by_cases hc : 128 ≤ c
      · have : 2 ≤ unitBytes c := by
          unfold unitBytes
          rw [if_neg (by omega)]
          split <;> omega
        omega
      · obtain ⟨x, hx, h128⟩ := h
        have hx2 : x ∈ d :: rest := by
          rcases List.mem_cons.mp hx with e | e
          · exact absurd (e ▸ h128) hc
          · exact e
        have ih := length_lt_utf8ByteLength (d :: rest) ⟨x, hx2, h128⟩
        simp only [List.length_cons] at ih
        omega

/-- No round trip beyond ASCII: when the JSON text of a message has a code unit
of 128 or above, its frame fed to a client with empty buffer is not decoded;
the whole frame stays in the buffer and nothing is handled. -/
theorem onData_frame_nonAscii (parse : JSString → Option JSValue) (s : Client)
    (json : JSString) (hs : s.stdoutBuffer = []) (h : ∃ c ∈ json, 128 ≤ c) :
    onData parse s (encodeFrame json) = some { s with stdoutBuffer := encodeFrame json } := by
  unfold onData
  rw [hs, List.nil_append]
  exact processStdoutBuffer_wait parse _ (utf8ByteLength json) json (encodeFrame_eq json)
    (length_lt_utf8ByteLength json h)

/-! ## C1: round trip of a request frame through the decoder -/

set_option maxRecDepth 100000 in
/-- C1 (code defect): the frame that `sendRequest` builds for the request of
`callMcpTool("search_web", { query: "café" })` declares the UTF-8 byte length
of its JSON text, one more than the number of UTF-16 code units that
`processStdoutBuffer` counts. Fed to the decoder from an empty buffer, the frame
yields no message and stays in `stdoutBuffer`, although `JSON.parse` of its
JSON text gives the request back. -/
theorem C1_nonAscii_frame_not_decoded :
    (callMcpTool jsonStringify Client.init (.str (units "search_web"))
        (.obj [(units "query", .str (units "café"))])).1.stdin
      = [encodeFrame (jsonStringify cafeRequest)] ∧
    utf8ByteLength (jsonStringify cafeRequest) = (jsonStringify cafeRequest).length + 1 ∧
    jsonParse (jsonStringify cafeRequest) = some cafeRequest ∧
    onData jsonParse Client.init (encodeFrame (jsonStringify cafeRequest)) =
      some { Client.init with stdoutBuffer := encodeFrame (jsonStringify cafeRequest) } ∧
    encodeFrame (jsonStringify cafeRequest) ≠ [] := by
  decide

/-! ## C2: a header block without numeric Content-Length -/

set_option maxRecDepth 100000 in
/-- C2 (counterexample): the buffer `Content-Length: abc\r\n\r\n` followed by the
complete frame of `{"jsonrpc":"2.0","id":"1","result":{}}`. The frame alone is
decoded and handled; behind the corrupt header block it is not: the call
empties the buffer and hands nothing to `handleMessage`. -/
theorem C2_valid_frame_after_corrupt_header_is_lost :
    jsonParse (jsonStringify emptyResultResponse) = some emptyResultResponse ∧
    onData jsonParse Client.init (encodeFrame (jsonStringify emptyResultResponse)) =
      some { Client.init with handled := [emptyResultResponse] } ∧
    execContentLength (units "Content-Length: abc") = none ∧
    onData jsonParse Client.init
        (units "Content-Length: abc\r\n\r\n" ++ encodeFrame (jsonStringify emptyResultResponse)) =
      some { Client.init with stdoutBuffer := [], handled := [] } := by
  decide

/-- C2 (amended): when the buffer starts with a header block, ended by the first
`\r\n\r\n`, in which the pattern finds no numeric Content-Length, then whatever
follows the block (a complete valid frame included) `processStdoutBuffer` returns
without throwing, empties the whole buffer and changes nothing else: no message
is handed to `handleMessage` and the pending call stays as it was. -/
theorem C2_corrupt_header_empties_buffer (parse : JSString → Option JSValue) (s : Client)
    (block rest : JSString)
    (hbuf : s.stdoutBuffer = block ++ units "\r\n\r\n" ++ rest)
    (hblock : indexOf (units "\r\n\r\n") (block ++ units "\r\n\r\n") = some block.length)
    (hfield : execContentLength block = none) :
    processStdoutBuffer parse s = some { s with stdoutBuffer := [] } := by
  have hidx := indexOf_append _ _ rest _ hblock
  unfold processStdoutBuffer
  rw [processLoop_succ, hbuf, hidx]
  simp only []
  rw [slice_head, hfield]

set_option maxRecDepth 100000 in
/-- C2 (witness): the amended statement at the buffer `X-Junk: 1\r\n\r\n` followed
by the frame of `{"jsonrpc":"2.0","id":"1","result":{}}`. -/
theorem C2_corrupt_header_empties_buffer_witness :
    processStdoutBuffer jsonParse
        { Client.init with
          stdoutBuffer := units "X-Junk: 1" ++ units "\r\n\r\n" ++
            encodeFrame (jsonStringify emptyResultResponse) } =
      some Client.init :=
  (C2_corrupt_header_empties_buffer jsonParse _ (units "X-Junk: 1")
    (encodeFrame (jsonStringify emptyResultResponse)) rfl (by decide) (by decide)).trans
    (by decide)

/-! ## C3: requests after the child has exited -/

set_option maxRecDepth 100000 in
/-- C3 (counterexample): a call is pending, the child exits with code 1, the
`exit` listener rejects the call. A second `callMcpTool` on the same client is
then not rejected: it returns a new promise, stores it as the pending call and
no callback of that promise has been invoked. -/
theorem C3_request_after_exit_is_registered :
    oneCallPending.pending = some 0 ∧
    (onExit oneCallPending (some 1) none).pending = none ∧
    (onExit oneCallPending (some 1) none).settled =
      [(0, .reject ⟨units "MCP server exited with code 1 signal null"⟩)] ∧
    (callMcpTool jsonStringify (onExit oneCallPending (some 1) none) (.str (units "search_web"))
        (.obj [(units "query", .str (units "y"))])).2 = SendResult.promise 1 ∧
    (callMcpTool jsonStringify (onExit oneCallPending (some 1) none) (.str (units "search_web"))
        (.obj [(units "query", .str (units "y"))])).1.pending = some 1 ∧
    promiseState (callMcpTool jsonStringify (onExit oneCallPending (some 1) none)
        (.str (units "search_web")) (.obj [(units "query", .str (units "y"))])).1 1 = none := by
  decide

/-- C3 (amended): the `exit` listener leaves the pending slot empty and keeps no
record of the exit, so a later `sendRequest` is accepted like any other: it
returns a new promise, stores it as the pending call and writes its frame to the
child's stdin. The call is rejected, and the slot cleared, when the callback of
that write reports an error. -/
theorem C3_sendRequest_after_exit (stringify : JSValue → JSString) (s : Client)
    (code : Option Int) (signal : Option JSString) (method params : JSValue) :
    (onExit s code signal).pending = none ∧
    sendRequest stringify (onExit s code signal) method params =
      ({ onExit s code signal with
          pending := some s.promises, promises := s.promises + 1,
          stdin := s.stdin ++ [encodeFrame (stringify (requestMessage method params))] },
        SendResult.promise s.promises) ∧
    ∀ err : JSError,
      writeCallback (sendRequest stringify (onExit s code signal) method params).1 s.promises
          (some err) =
        { onExit s code signal with
          pending := none, promises := s.promises + 1,
          stdin := s.stdin ++ [encodeFrame (stringify (requestMessage method params))],
          settled := (onExit s code signal).settled ++ [(s.promises, .reject err)] } := by
  have hp : (onExit s code signal).pending = none := by
    unfold onExit
    cases h : s.pending with
    | none => simpa using h
    | some p => rfl
  have hn : (onExit s code signal).promises = s.promises := by
    unfold onExit
    cases s.pending <;> rfl
  have hi : (onExit s code signal).stdin = s.stdin := by
    unfold onExit
    cases s.pending <;> rfl
  have hsend : sendRequest stringify (onExit s code signal) method params =
      ({ onExit s code signal with
          pending := some s.promises, promises := s.promises + 1,
          stdin := s.stdin ++ [encodeFrame (stringify (requestMessage method params))] },
        SendResult.promise s.promises) := by
    simp [sendRequest, hp, hn, hi]
  refine ⟨hp, hsend, ?_⟩
  intro err
  rw [hsend]
  rfl

/-! ## C4: correlation of a response with the pending call -/

set_option maxRecDepth 100000 in
/-- C4 (counterexample): with the call of `oneCallPending` outstanding (its
request has id "1"), `handleMessage` resolves it on a response whose id is "2",
and on a message without id, and clears the slot both times. -/
theorem C4_other_id_completes_the_call :
    oneCallPending.pending = some 0 ∧
    (handleMessage oneCallPending otherIdResponse).pending = none ∧
    (handleMessage oneCallPending otherIdResponse).settled = [(0, .resolve (.obj []))] ∧
    (handleMessage oneCallPending noIdMessage).pending = none ∧
    (handleMessage oneCallPending noIdMessage).settled = [(0, .resolve noIdMessage)] := by
  decide

/-- C4 (amended): `handleMessage` does not read `id`. For every decoded message
that is an object or an array, whatever its id (absent, different from or equal
to the request's), `handleMessage` with a call pending clears the slot, and,
when the string conversion of `msg.error.message` does not throw, invokes
exactly one of that call's `resolve` and `reject`. -/
theorem C4_handleMessage_ignores_id (s : Client) (p : Nat) (msg : JSValue)
    (hp : s.pending = some p) (hobj : msg.truthy = true ∧ msg.typeofObject = true) :
    (handleMessage s msg).pending = none ∧
    (toStrThrows ((msg.get (units "error")).get (units "message")) = false →
      ∃ outcome, (handleMessage s msg).settled = s.settled ++ [(p, outcome)]) := by
  unfold handleMessage
  simp only [hobj.1, hobj.2, hp, Bool.not_true, Bool.or_self, Bool.false_eq_true, if_false]
  constructor
  · split
    · split <;> rfl
    · split <;> rfl
  · intro hconv
    rw [hconv]
    simp only [Bool.and_false, Bool.false_eq_true, if_false]
    split
    · exact ⟨_, rfl⟩
    · split
      · exact ⟨_, rfl⟩
      · exact ⟨_, rfl⟩

set_option maxRecDepth 100000 in
/-- C4 (witness): the amended statement at the response with id "2". -/
theorem C4_handleMessage_ignores_id_witness :
    (handleMessage oneCallPending otherIdResponse).pending = none ∧
    ∃ outcome, (handleMessage oneCallPending otherIdResponse).settled =
      oneCallPending.settled ++ [(0, outcome)] :=
  ⟨(C4_handleMessage_ignores_id oneCallPending 0 otherIdResponse (by decide) (by decide)).1,
    (C4_handleMessage_ignores_id oneCallPending 0 otherIdResponse (by decide) (by decide)).2
      (by decide)⟩

/-! ## C5: the busy rule -/

/-- C5: while a call is pending, `sendRequest` returns a promise rejected with
the busy message and leaves the client state as it was: nothing is written to
the child's stdin and the pending record is unchanged. The state being the same,
every later `data` event, and so the response of the first call, is processed
exactly as if the second call had not been made. -/
theorem C5_busy_rule (stringify : JSValue → JSString) (s : Client) (method params : JSValue)
    (hp : s.pending.isSome = true) :
    sendRequest stringify s method params =
      (s, SendResult.rejected
        ⟨units "Only one MCP request at a time is supported in this client"⟩) ∧
    (sendRequest stringify s method params).1.stdin = s.stdin ∧
    (sendRequest stringify s method params).1.pending = s.pending ∧
    ∀ (parse : JSString → Option JSValue) (chunk : JSString),
      onData parse (sendRequest stringify s method params).1 chunk = onData parse s chunk := by
  have h : sendRequest stringify s method params =
      (s, SendResult.rejected
        ⟨units "Only one MCP request at a time is supported in this client"⟩) := by
    unfold sendRequest
    rw [if_pos hp]
    rfl
  rw [h]
  exact ⟨rfl, rfl, rfl, fun _ _ => rfl⟩

set_option maxRecDepth 100000 in
/-- C5 (witness): the busy rule at the state with one call pending. -/
theorem C5_busy_rule_witness :
    sendRequest jsonStringify oneCallPending (.str (units "tools/call")) .null =
      (oneCallPending, SendResult.rejected
        ⟨units "Only one MCP request at a time is supported in this client"⟩) :=
  (C5_busy_rule jsonStringify oneCallPending (.str (units "tools/call")) .null (by decide)).1

/-! ## C6: a frame delivered in chunks -/

/-- Once `processStdoutBuffer` has returned, running it again changes nothing. -/
theorem processLoop_idempotent (parse : JSString → Option JSValue) :
    ∀ (fuel : Nat) (s s2 : Client), processLoop parse fuel s = some s2 →
      ∀ fuel2, processLoop parse (fuel2 + 1) s2 = some s2 := by
  intro fuel
  induction fuel with
  | zero => intro s s2 h; simp [processLoop] at h
  | succ k ih =>
    intro s s2 h fuel2
    rw [processLoop_succ] at h
    cases hi : indexOf (units "\r\n\r\n") s.stdoutBuffer with
    | none =>
      rw [hi] at h
      cases h
      rw [processLoop_succ, hi]
    | some headerEnd =>
      rw [hi] at h
      simp only [] at h
      cases hm : execContentLength (slice s.stdoutBuffer 0 headerEnd) with
      | none =>
        rw [hm] at h
        cases h
        rw [processLoop_succ]
        simp [indexOf, startsWith, units_separator]
      | some digits =>
        rw [hm] at h
        simp only [] at h
        split at h
        · next hlen =>
          cases h
          rw [processLoop_succ, hi]
          simp only []
          rw [hm]
          simp only []
          rw [if_pos hlen]
        · split at h
          · exact ih _ _ h fuel2
          · exact ih _ _ h fuel2

theorem processStdoutBuffer_idempotent (parse : JSString → Option JSValue) (s s2 : Client)
    (h : processStdoutBuffer parse s = some s2) : processStdoutBuffer parse s2 = some s2 :=
  processLoop_idempotent parse _ s s2 h _

/-- After `processStdoutBuffer` has returned, `data` events with empty chunks
change nothing. -/
theorem onDataAll_empty_chunks (parse : JSString → Option JSValue) (s s2 : Client)
    (h : processStdoutBuffer parse s = some s2) :
    ∀ chunks : List JSString, (∀ c ∈ chunks, c = []) → onDataAll parse s2 chunks = some s2 := by
  have hstep : onData parse s2 [] = some s2 := by
    unfold onData
    rw [List.append_nil]
    exact processStdoutBuffer_idempotent parse s s2 h
  intro chunks
  induction chunks with
  | nil => intro _; rfl
  | cons c cs ih =>
    intro hall
    have hc : c = [] := hall c (by simp)
    have hcs : ∀ d ∈ cs, d = [] := fun d hd => hall d (by simp [hd])
    unfold onDataAll at ih ⊢
    rw [List.foldlM_cons, hc, hstep]
    exact ih hcs

/-- A proper prefix of a frame, alone in the buffer, is left as it is: either
the separator is not complete, or the body is shorter than the declared length. -/
theorem processStdoutBuffer_partial_frame (parse : JSString → Option JSValue) (s : Client)
    (n : Nat) (json rest : JSString) (hn : json.length ≤ n)
    (hpre : s.stdoutBuffer ++ rest = frameBuffer n json)
    (hlt : s.stdoutBuffer.length < (frameBuffer n json).length) :
    processStdoutBuffer parse s = some s := by
  have hF : frameBuffer n json =
      (units "Content-Length: " ++ toDecimal n ++ [13, 10, 13, 10]) ++ json := by
    rw [frameBuffer, units_separator]
  have hlen := frameBuffer_length n json
  have htake : s.stdoutBuffer = (frameBuffer n json).take s.stdoutBuffer.length := by
    rw [← hpre, List.take_left]
  by_cases hk : s.stdoutBuffer.length < (units "Content-Length: " ++ toDecimal n).length + 4
  · apply processStdoutBuffer_noSeparator
    rw [htake, hF, List.take_append_of_le_length (by simp; simp at hk; omega), units_separator]
    exact indexOf_separator_partial _ (header_no_cr n) _ hk
  · have hl : (units "Content-Length: " ++ toDecimal n ++ [13, 10, 13, 10]).length =
        (units "Content-Length: " ++ toDecimal n).length + 4 := by
      rw [List.length_append (units "Content-Length: " ++ toDecimal n)]
      rfl
    have hbuf : s.stdoutBuffer = frameBuffer n
        (json.take (s.stdoutBuffer.length - ((units "Content-Length: " ++ toDecimal n).length + 4))) := by
      conv_lhs => rw [htake, hF, List.take_append_eq_append_take, hl]
      rw [List.take_of_length_le (by rw [hl]; omega), frameBuffer, units_separator]
    refine processStdoutBuffer_wait parse s n _ hbuf ?_
    rw [List.length_take]
    omega

theorem onDataAll_frame_chunks (parse : JSString → Option JSValue) (s : Client) (n : Nat)
    (json : JSString) (hn : json.length ≤ n) :
    ∀ (chunks : List JSString) (acc : JSString),
      acc ++ chunks.flatten = frameBuffer n json → acc.length < (frameBuffer n json).length →
      onDataAll parse { s with stdoutBuffer := acc } chunks =
        processStdoutBuffer parse { s with stdoutBuffer := frameBuffer n json } := by
  intro chunks
  induction chunks with
  | nil =>
    intro acc hacc hlt
    rw [List.flatten_nil, List.append_nil] at hacc
    rw [hacc] at hlt
    exact absurd hlt (Nat.lt_irrefl _)
  | cons c cs ih =>
    intro acc hacc hlt
    rw [List.flatten_cons, ← List.append_assoc] at hacc
    unfold onDataAll
    rw [List.foldlM_cons]
    show (processStdoutBuffer parse { s with stdoutBuffer := acc ++ c }) >>=
      (fun s1 => onDataAll parse s1 cs) = _
    by_cases hc : (acc ++ c).length < (frameBuffer n json).length
    · rw [processStdoutBuffer_partial_frame parse { s with stdoutBuffer := acc ++ c } n json
        cs.flatten hn hacc hc]
      exact ih (acc ++ c) hacc hc
    · have hle : (acc ++ c).length + cs.flatten.length = (frameBuffer n json).length := by
        rw [← hacc, List.length_append (acc ++ c)]
      have hnil : cs.flatten = [] := List.length_eq_zero.mp (by omega)
      have hfull : acc ++ c = frameBuffer n json := by
        rw [← hacc, hnil, List.append_nil]
      rw [hfull]
      obtain ⟨s2, hs2⟩ := processStdoutBuffer_returns parse
        { s with stdoutBuffer := frameBuffer n json }
      rw [hs2]
      exact onDataAll_empty_chunks parse _ s2 hs2 cs (List.flatten_eq_nil_iff.mp hnil)

/-- C6: for every message `m`, whatever JSON text `JSON.stringify` gives it, and
every list of chunks whose concatenation is the frame of `m`, `data` events
delivering the chunks one by one to a client with empty buffer end in the same
client state (the same handled messages, the same settled calls, the same
`stdoutBuffer`) as one `data` event delivering the whole frame. The chunks may
split the header, the separator or the payload, and may be empty. -/
theorem C6_chunked_delivery (parse : JSString → Option JSValue)
    (stringify : JSValue → JSString) (s : Client) (m : JSValue) (chunks : List JSString)
    (hs : s.stdoutBuffer = []) (hsplit : chunks.flatten = encodeFrame (stringify m)) :
    onDataAll parse s chunks = onData parse s (encodeFrame (stringify m)) := by
  have hn := length_le_utf8ByteLength (stringify m)
  have hpos : ([] : JSString).length < (frameBuffer (utf8ByteLength (stringify m)) (stringify m)).length := by
    rw [frameBuffer_length]
    simp
  have h := onDataAll_frame_chunks parse s _ (stringify m) hn chunks []
    (by rw [List.nil_append, hsplit, encodeFrame_eq]) hpos
  have hs2 : ({ s with stdoutBuffer := [] } : Client) = s := by
    cases s
    simp only [Client.mk.injEq, and_true, true_and] at hs ⊢
    exact hs.symm
  rw [hs2] at h
  rw [h, onData, hs, List.nil_append, encodeFrame_eq]

set_option maxRecDepth 100000 in
/-- C6 (witness): the response `{"jsonrpc":"2.0","id":"1","result":{}}` delivered
to the client with one call pending in four chunks, cut inside the header,
inside the separator and inside the payload; both deliveries resolve the call
with `{}` and leave the buffer empty. -/
theorem C6_chunked_delivery_witness :
    onData jsonParse oneCallPending (encodeFrame (jsonStringify emptyResultResponse)) =
      some { oneCallPending with
        pending := none, handled := [emptyResultResponse],
        settled := [(0, .resolve (.obj []))] } ∧
    onDataAll jsonParse oneCallPending
        [units "Content-", units "Length: 38\r\n", units "\r\n\x7b\"jsonrpc\"",
          units ":\"2.0\",\"id\":\"1\",\"result\":\x7b\x7d\x7d"] =
      onData jsonParse oneCallPending (encodeFrame (jsonStringify emptyResultResponse)) :=
  ⟨by decide,
    C6_chunked_delivery jsonParse jsonStringify oneCallPending emptyResultResponse
      [units "Content-", units "Length: 38\r\n", units "\r\n\x7b\"jsonrpc\"",
        units ":\"2.0\",\"id\":\"1\",\"result\":\x7b\x7d\x7d"] (by decide) (by decide)⟩

/-! ## C7: two frames in one `data` event -/

set_option maxRecDepth 100000 in
/-- C7 (code defect): the frames of a response whose text is `café` and of
`{"jsonrpc":"2.0","id":"1","result":{}}`, concatenated and delivered in one
`data` event to the client with one call pending. Both JSON texts parse back to
their messages, yet neither message reaches `handleMessage`: the declared byte
length makes the first payload one code unit too long, `JSON.parse` rejects it,
what is left no longer starts with a header, and the buffer is emptied. The call
stays pending. The first frame alone is not decoded either. -/
theorem C7_nonAscii_first_frame_loses_both :
    jsonParse (jsonStringify cafeResponse) = some cafeResponse ∧
    jsonParse (jsonStringify emptyResultResponse) = some emptyResultResponse ∧
    utf8ByteLength (jsonStringify cafeResponse) = (jsonStringify cafeResponse).length + 1 ∧
    onData jsonParse oneCallPending
        (encodeFrame (jsonStringify cafeResponse) ++
          encodeFrame (jsonStringify emptyResultResponse)) =
      some { oneCallPending with stdoutBuffer := [], handled := [] } ∧
    oneCallPending.pending = some 0 ∧
    onData jsonParse oneCallPending (encodeFrame (jsonStringify cafeResponse)) =
      some { oneCallPending with stdoutBuffer := encodeFrame (jsonStringify cafeResponse) } := by
  decide

/-! ## C8: unwrapping of a tool result -/

set_option maxRecDepth 100000 in
/-- C8 (counterexample): on `{"content":[{"type":"text","text":null}]}` the first
item of type "text" has the text `null`, and `callMcpTool` returns the JSON text
of the whole result instead of that item's text. On
`{"content":[null,{"type":"text","text":"hi"}]}` it returns nothing: reading
`type` of the `null` item throws. -/
theorem C8_null_text_falls_back :
    findTextItem [.obj [(units "type", .str (units "text")), (units "text", .null)]] =
      some (.obj [(units "type", .str (units "text")), (units "text", .null)]) ∧
    callMcpToolReturn jsonStringify nullTextResult =
      some (.str (units "\x7b\"content\":[\x7b\"type\":\"text\",\"text\":null\x7d]\x7d")) ∧
    callMcpToolReturn jsonStringify nullItemResult = none := by
  decide

theorem findTextItem_none_found (items : List JSValue)
    (hnn : ∀ c ∈ items, c.isNullish = false)
    (hty : ∀ c ∈ items, c.get (units "type") ≠ .str (units "text")) :
    findTextItem items = some .undefined := by
  induction items with
  | nil => rfl
  | cons c cs ih =>
    unfold findTextItem
    rw [hnn c (by simp)]
    simp only [Bool.false_eq_true, if_false, if_neg (hty c (by simp))]
    exact ih (fun d hd => hnn d (by simp [hd])) (fun d hd => hty d (by simp [hd]))

theorem findTextItem_first (pre post : List JSValue) (item : JSValue)
    (hnn : ∀ c ∈ pre, c.isNullish = false) (hitem : item.isNullish = false)
    (hty : ∀ c ∈ pre, c.get (units "type") ≠ .str (units "text"))
    (htext : item.get (units "type") = .str (units "text")) :
    findTextItem (pre ++ item :: post) = some item := by
  induction pre with
  | nil =>
    simp only [List.nil_append]
    unfold findTextItem
    rw [hitem, if_pos htext]
    simp
  | cons c cs ih =>
    simp only [List.cons_append]
    unfold findTextItem
    rw [hnn c (by simp)]
    simp only [Bool.false_eq_true, if_false, if_neg (hty c (by simp))]
    exact ih (fun d hd => hnn d (by simp [hd])) (fun d hd => hty d (by simp [hd]))

theorem truthy_of_get_arr (r : JSValue) (key : JSString) (items : List JSValue)
    (h : r.get key = .arr items) : r.truthy = true := by
  cases r <;> simp [JSValue.get] at h
  rfl

theorem truthy_of_get_str (r : JSValue) (key : JSString) (q : JSString)
    (h : r.get key = .str q) : r.truthy = true := by
  cases r <;> simp [JSValue.get] at h
  rfl

/-- C8 (amended): let `r` be a result whose `content`, when it is an array, holds
no `null` item. If `r` is falsy, `r.content` is not an array, or no item has type
"text", `callMcpTool` returns `JSON.stringify(r)`. If some item has type "text",
`callMcpTool` returns the text of the first such item when that text is neither
`null` nor `undefined`, and `JSON.stringify(r)` when it is. -/
theorem C8_result_unwrapping (stringify : JSValue → JSString) (r : JSValue)
    (hitems : ∀ items, r.get (units "content") = .arr items → ∀ c ∈ items, c.isNullish = false) :
    ((r.truthy = false ∨ (r.get (units "content")).isArray = false) →
      callMcpToolReturn stringify r = some (stringifyValue stringify r)) ∧
    (∀ items, r.get (units "content") = .arr items →
      (∀ c ∈ items, c.get (units "type") ≠ .str (units "text")) →
      callMcpToolReturn stringify r = some (stringifyValue stringify r)) ∧
    (∀ pre item post, r.get (units "content") = .arr (pre ++ item :: post) →
      (∀ c ∈ pre, c.get (units "type") ≠ .str (units "text")) →
      item.get (units "type") = .str (units "text") →
      callMcpToolReturn stringify r =
        some (if (item.get (units "text")).isNullish then stringifyValue stringify r
              else item.get (units "text"))) := by
  refine ⟨?_, ?_, ?_⟩
  · intro h
    unfold callMcpToolReturn
    rcases h with h | h
    · simp [h]
    · split
      · rfl
      · cases hc : r.get (units "content") with
        | arr items => rw [hc] at h; simp [JSValue.isArray] at h
        | _ => rfl
  · intro items hc hty
    have ht := truthy_of_get_arr r _ items hc
    unfold callMcpToolReturn
    simp only [ht, Bool.not_true, Bool.false_eq_true, if_false, hc]
    rw [findTextItem_none_found items (hitems items hc) hty]
    rfl
  · intro pre item post hc hty htext
    have ht := truthy_of_get_arr r _ _ hc
    have hall := hitems _ hc
    have hfind := findTextItem_first pre post item (fun c h => hall c (by simp [h]))
      (hall item (by simp)) hty htext
    unfold callMcpToolReturn
    simp only [ht, Bool.not_true, Bool.false_eq_true, if_false, hc]
    rw [hfind]
    simp only [hall item (by simp), Bool.false_eq_true, if_false]
    split <;> rfl

set_option maxRecDepth 100000 in
/-- C8 (witness): on `{"content":[{"type":"image"},{"type":"text","text":"hi"}]}` the
amended statement gives the text `hi` of the second item. -/
theorem C8_result_unwrapping_witness :
    callMcpToolReturn jsonStringify imageThenTextResult = some (.str (units "hi")) :=
  ((C8_result_unwrapping jsonStringify imageThenTextResult (by
      intro items h c hc
      have e : items = [.obj [(units "type", .str (units "image"))],
          .obj [(units "type", .str (units "text")), (units "text", .str (units "hi"))]] := by
        simp [imageThenTextResult, JSValue.get, JSValue.lookup] at h
        exact h.symm
      subst e
      simp at hc
      rcases hc with rfl | rfl <;> rfl)).2.2
    [.obj [(units "type", .str (units "image"))]]
    (.obj [(units "type", .str (units "text")), (units "text", .str (units "hi"))]) []
    (by decide) (by decide) (by decide)).trans (by decide)

/-! ## C9 and C10: the `tools/call` handler -/

/-- C9: for the tool name `search_web`, when the arguments have no `query`
property that is a string (arguments absent or falsy, `query` missing, `query`
not a string) the handler returns the error-flagged result with the single text
item `Error: 'query' parameter is required and must be a string` and does not
invoke `searchWeb`. For every name, `searchWeb` is invoked exactly when the name
is `search_web` and `query` is a string, and then once, with that string. -/
theorem C9_missing_query (searchWeb : JSString → JSValue) (args : JSValue) :
    ((∀ q, args.get (units "query") ≠ .str q) →
      callToolHandler searchWeb (.str (units "search_web")) args =
        ⟨.obj [(units "content", .arr [.obj [(units "type", .str (units "text")),
            (units "text",
              .str (units "Error: 'query' parameter is required and must be a string"))]]),
          (units "isError", .bool true)], []⟩) ∧
    (∀ name, (callToolHandler searchWeb name args).searchWebCalls ≠ [] ↔
      (name = .str (units "search_web") ∧ ∃ q, args.get (units "query") = .str q)) ∧
    (∀ q, args.get (units "query") = .str q →
      callToolHandler searchWeb (.str (units "search_web")) args = ⟨searchWeb q, [q]⟩) := by
  refine ⟨?_, ?_, ?_⟩
  · intro h
    unfold callToolHandler
    rw [if_pos rfl]
    split
    · rfl
    · cases hq : args.get (units "query") with
      | str q => exact absurd hq (h q)
      | _ => rfl
  · intro name
    unfold callToolHandler
    by_cases hn : name = .str (units "search_web")
    · rw [if_pos hn]
      by_cases ht : args.truthy = true
      · simp only [ht, Bool.not_true, Bool.false_eq_true, if_false]
        cases hq : args.get (units "query") <;> simp [hn]
      · have hf : args.truthy = false := by simpa using ht
        have hu : args.get (units "query") = .undefined := by
          cases args <;> simp [JSValue.truthy] at hf <;> rfl
        simp [hf, hu, hn]
    · rw [if_neg hn]
      simp [hn]
  · intro q hq
    have ht := truthy_of_get_str args _ q hq
    unfold callToolHandler
    rw [if_pos rfl]
    simp only [ht, Bool.not_true, Bool.false_eq_true, if_false, hq]

set_option maxRecDepth 100000 in
/-- C9 (witness): `search_web` called with the arguments `{"q":"x"}`, which have
no `query`. -/
theorem C9_missing_query_witness :
    callToolHandler (fun _ => .null) (.str (units "search_web"))
        (.obj [(units "q", .str (units "x"))]) =
      ⟨.obj [(units "content", .arr [.obj [(units "type", .str (units "text")),
          (units "text",
            .str (units "Error: 'query' parameter is required and must be a string"))]]),
        (units "isError", .bool true)], []⟩ :=
  (C9_missing_query (fun _ => .null) (.obj [(units "q", .str (units "x"))])).1 (by
    intro q h
    have e : (JSValue.obj [(units "q", .str (units "x"))]).get (units "query") = .undefined := by
      decide
    rw [e] at h
    cases h)

/-- C10: for every tool name other than `search_web` and every arguments value
the handler returns a result: `isError` is `true`, the content is the single
text item `Unknown tool: ` followed by the name as the template literal writes
it (the name itself when it is a string), and `searchWeb` is not invoked. -/
theorem C10_unknown_tool (searchWeb : JSString → JSValue) (name args : JSValue)
    (hname : name ≠ .str (units "search_web")) :
    callToolHandler searchWeb name args =
      ⟨.obj [(units "content", .arr [.obj [(units "type", .str (units "text")),
          (units "text", .str (units "Unknown tool: " ++ toStr name))]]),
        (units "isError", .bool true)], []⟩ ∧
    (callToolHandler searchWeb name args).searchWebCalls = [] ∧
    (callToolHandler searchWeb name args).result.get (units "isError") = .bool true ∧
    ∀ n, name = .str n → toStr name = n := by
  have h : callToolHandler searchWeb name args =
      ⟨.obj [(units "content", .arr [.obj [(units "type", .str (units "text")),
          (units "text", .str (units "Unknown tool: " ++ toStr name))]]),
        (units "isError", .bool true)], []⟩ := by
    unfold callToolHandler
    rw [if_neg hname]
    rfl
  rw [h]
  refine ⟨rfl, rfl, rfl, ?_⟩
  intro n hn
  rw [hn]
  rfl

set_option maxRecDepth 100000 in
/-- C10 (witness): the tool name `echo` with arguments `{"text":"hi"}`. -/
theorem C10_unknown_tool_witness :
    callToolHandler (fun _ => .null) (.str (units "echo"))
        (.obj [(units "text", .str (units "hi"))]) =
      ⟨.obj [(units "content", .arr [.obj [(units "type", .str (units "text")),
          (units "text", .str (units "Unknown tool: echo"))]]),
        (units "isError", .bool true)], []⟩ :=
  (C10_unknown_tool (fun _ => .null) (.str (units "echo"))
    (.obj [(units "text", .str (units "hi"))]) (by decide)).1.trans (by decide)

/-! ## C11: how a response settles the pending call -/

/-- How `handleMessage` settles the pending call `p` on a message that is an
object or an array, when the string conversion of `msg.error.message` does not
throw: a truthy `error` rejects with the string conversion of a truthy
`msg.error.message` and with `MCP error` otherwise; else a `result` property
resolves with its value; else the message itself resolves. -/
theorem handleMessage_settles (s : Client) (p : Nat) (msg : JSValue)
    (hp : s.pending = some p) (hobj : msg.truthy = true ∧ msg.typeofObject = true)
    (hconv : toStrThrows ((msg.get (units "error")).get (units "message")) = false) :
    ((msg.hasProp (units "error") = true ∧ (msg.get (units "error")).truthy = true) →
      handleMessage s msg =
        { ({ s with handled := s.handled ++ [msg], pending := none } : Client) with
          settled := s.settled ++ [(p, .reject ⟨
            if ((msg.get (units "error")).get (units "message")).truthy = true
            then toStr ((msg.get (units "error")).get (units "message"))
            else units "MCP error"⟩)] }) ∧
    (¬(msg.hasProp (units "error") = true ∧ (msg.get (units "error")).truthy = true) →
      msg.hasProp (units "result") = true →
      handleMessage s msg =
        { ({ s with handled := s.handled ++ [msg], pending := none } : Client) with
          settled := s.settled ++ [(p, .resolve (msg.get (units "result")))] }) ∧
    (¬(msg.hasProp (units "error") = true ∧ (msg.get (units "error")).truthy = true) →
      msg.hasProp (units "result") = false →
      handleMessage s msg =
        { ({ s with handled := s.handled ++ [msg], pending := none } : Client) with
          settled := s.settled ++ [(p, .resolve msg)] }) := by
  refine ⟨?_, ?_, ?_⟩
  · intro h
    unfold handleMessage
    simp only [hobj.1, hobj.2, hp, Bool.not_true, Bool.or_self, Bool.false_eq_true, if_false,
      h.1, h.2, Bool.and_self, if_true, hconv, Bool.and_false]
  · intro h hr
    have hf : (msg.hasProp (units "error") && (msg.get (units "error")).truthy) = false := by
      cases h1 : msg.hasProp (units "error") <;> cases h2 : (msg.get (units "error")).truthy
        <;> simp_all
    unfold handleMessage
    simp only [hobj.1, hobj.2, hp, Bool.not_true, Bool.or_self, Bool.false_eq_true, if_false,
      hf, hr, if_true]
  · intro h hr
    have hf : (msg.hasProp (units "error") && (msg.get (units "error")).truthy) = false := by
      cases h1 : msg.hasProp (units "error") <;> cases h2 : (msg.get (units "error")).truthy
        <;> simp_all
    unfold handleMessage
    simp only [hobj.1, hobj.2, hp, Bool.not_true, Bool.or_self, Bool.false_eq_true, if_false,
      hf, hr]

set_option maxRecDepth 100000 in
/-- C11 (code defect): with one call pending, the frame of
`{"jsonrpc":"2.0","id":"1","error":{"message":{"toString":1}}}` arrives. The
message has a truthy `error`, yet the call is not rejected: `handleMessage`
clears the slot, `new Error(...)` throws on the conversion of the message to a
string, and the `catch` of `processStdoutBuffer` swallows the exception. No
callback of the call is ever invoked: a later response is handled with the slot
empty. The response with the message `boom` does reject the call. -/
theorem C11_error_message_conversion_throws :
    jsonParse (jsonStringify ownToStringResponse) = some ownToStringResponse ∧
    toStrThrows ((ownToStringResponse.get (units "error")).get (units "message")) = true ∧
    onData jsonParse oneCallPending (encodeFrame (jsonStringify ownToStringResponse)) =
      some { oneCallPending with handled := [ownToStringResponse], pending := none } ∧
    (handleMessage oneCallPending ownToStringResponse).settled = [] ∧
    promiseState (handleMessage oneCallPending ownToStringResponse) 0 = none ∧
    (onData jsonParse (handleMessage oneCallPending ownToStringResponse)
        (encodeFrame (jsonStringify emptyResultResponse))).map
          (fun s => (s.handled, s.settled)) =
      some ([ownToStringResponse, emptyResultResponse], []) ∧
    handleMessage oneCallPending boomResponse =
      { oneCallPending with
        handled := [boomResponse], pending := none,
        settled := [(0, .reject ⟨units "boom"⟩)] } := by
  decide

/-! ## C12: the `exit` and `error` events -/

/-- C12: with a call `p` pending, the `exit` listener rejects it with the message
`MCP server exited with code <code or null> signal <signal or null>` and the
`error` listener rejects it with the emitted error; both clear the slot. With
no call pending both listeners leave the client state as it is, so nothing is
kept for a later call. -/
theorem C12_terminal_events (s : Client) (code : Option Int) (signal : Option JSString)
    (err : JSError) :
    (∀ p, s.pending = some p →
      onExit s code signal =
        { s with pending := none,
                 settled := s.settled ++ [(p, .reject ⟨
                   units "MCP server exited with code " ++
                   (match code with
                    | some c => intToString c
                    | none => units "null") ++
                   units " signal " ++
                   (match signal with
                    | some g => g
                    | none => units "null")⟩)] } ∧
      onError s err =
        { s with pending := none, settled := s.settled ++ [(p, .reject err)] }) ∧
    (s.pending = none → onExit s code signal = s ∧ onError s err = s) := by
  constructor
  · intro p hp
    constructor
    · unfold onExit exitMessage
      rw [hp]
      cases code <;> cases signal <;> rfl
    · unfold onError
      rw [hp]
  · intro hp
    constructor
    · unfold onExit
      rw [hp]
    · unfold onError
      rw [hp]

set_option maxRecDepth 100000 in
/-- C12 (witness): the child is killed by `SIGTERM` while one call is pending. -/
theorem C12_terminal_events_witness :
    onExit oneCallPending none (some (units "SIGTERM")) =
      { oneCallPending with
        pending := none,
        settled := [(0, .reject ⟨units "MCP server exited with code null signal SIGTERM"⟩)] } :=
  ((C12_terminal_events oneCallPending none (some (units "SIGTERM")) ⟨[]⟩).1 0
    (by decide)).1.trans (by decide)

/-! ## C13: failure of the stdin write -/

/-- C13: when the write callback of the pending call `id` reports an error, the
call is rejected with that error and the slot is cleared; the next `sendRequest`
is then accepted: it returns a new promise and stores it as the pending call. -/
theorem C13_write_failure (s : Client) (id : Nat) (err : JSError) (hp : s.pending = some id) :
    writeCallback s id (some err) =
      { s with pending := none, settled := s.settled ++ [(id, .reject err)] } ∧
    ∀ (stringify : JSValue → JSString) (method params : JSValue),
      (sendRequest stringify (writeCallback s id (some err)) method params).2 =
        SendResult.promise s.promises ∧
      (sendRequest stringify (writeCallback s id (some err)) method params).1.pending =
        some s.promises := by
  have _ := hp
  refine ⟨rfl, ?_⟩
  intro stringify method params
  simp [sendRequest, writeCallback]

set_option maxRecDepth 100000 in
/-- C13 (witness): the write of the one pending call fails with `EPIPE`. -/
theorem C13_write_failure_witness :
    writeCallback oneCallPending 0 (some ⟨units "write EPIPE"⟩) =
      { oneCallPending with
        pending := none, settled := [(0, .reject ⟨units "write EPIPE"⟩)] } :=
  (C13_write_failure oneCallPending 0 ⟨units "write EPIPE"⟩ (by decide)).1.trans (by decide)

/-! ## C15: the frame that `sendRequest` writes -/

/-- C15: with no call pending, `sendRequest` passes to `child.stdin.write`
exactly `Content-Length: `, the decimal digits of the UTF-8 byte length of `j`,
`\r\n\r\n` and `j`, where `j` is the JSON text of
`{jsonrpc: "2.0", id: "1", method, params}`. The digits read back as the byte
length, which is at least the number of code units of `j` and larger when `j`
has a character beyond ASCII. `callMcpTool(toolName, args)` is this request with
method `tools/call` and params `{name: toolName, arguments: args}`. -/
theorem C15_encoding (stringify : JSValue → JSString) (s : Client) (method params : JSValue)
    (hp : s.pending = none) :
    (sendRequest stringify s method params).1.stdin =
      s.stdin ++ [units "Content-Length: " ++
        toDecimal (utf8ByteLength (stringify (.obj [(units "jsonrpc", .str (units "2.0")),
          (units "id", .str (units "1")), (units "method", method),
          (units "params", params)]))) ++
        units "\r\n\r\n" ++
        stringify (.obj [(units "jsonrpc", .str (units "2.0")),
          (units "id", .str (units "1")), (units "method", method),
          (units "params", params)])] ∧
    (∀ j : JSString, parseInt10 (toDecimal (utf8ByteLength j)) = utf8ByteLength j ∧
      j.length ≤ utf8ByteLength j ∧ ((∃ c ∈ j, 128 ≤ c) → j.length < utf8ByteLength j)) ∧
    (∀ toolName args : JSValue,
      callMcpTool stringify s toolName args =
        sendRequest stringify s (.str (units "tools/call"))
          (.obj [(units "name", toolName), (units "arguments", args)])) := by
  refine ⟨?_, ?_, fun _ _ => rfl⟩
  · simp [sendRequest, hp, encodeFrame, requestMessage]
  · intro j
    exact ⟨parseInt10_toDecimal _, length_le_utf8ByteLength j, length_lt_utf8ByteLength j⟩

set_option maxRecDepth 100000 in
/-- C15 (witness): `callMcpTool("search_web", { query: "café" })` on the freshly
loaded module writes a frame that declares 109 bytes for 108 code units. -/
theorem C15_encoding_witness :
    (callMcpTool jsonStringify Client.init (.str (units "search_web"))
        (.obj [(units "query", .str (units "café"))])).1.stdin =
      [units "Content-Length: 109\r\n\r\n\x7b\"jsonrpc\":\"2.0\",\"id\":\"1\",\"method\":\"tools/call\",\"params\":\x7b\"name\":\"search_web\",\"arguments\":\x7b\"query\":\"café\"\x7d\x7d\x7d"] :=
  ((C15_encoding jsonStringify Client.init (.str (units "tools/call"))
    (.obj [(units "name", .str (units "search_web")),
      (units "arguments", .obj [(units "query", .str (units "café"))])]) rfl).1).trans
    (by decide)

/-! ## C14: `searchWeb` turns every fault into an error result -/

theorem searchWeb_shape (env : SearchEnv) (query : JSString) :
    ∃ text, (searchWeb env query).result = textResult text ∨
      (searchWeb env query).result = errorResult text := by
  unfold searchWeb
  rcases h : searchWebTry env query with ⟨fetches, outcome⟩
  cases outcome with
  | ok text => exact ⟨text, Or.inl rfl⟩
  | error e => exact ⟨_, Or.inr rfl⟩

/-- C14: for every query and all surroundings, `searchWeb` returns a tool result:
one text item, with or without the error flag; every error thrown inside the
`try` block ends in the `catch` block. When `SERPAPI_KEY` is undefined or empty
it calls `fetch` not at all and returns the error-flagged result with the text
`Web search encountered an error: SERPAPI_KEY not found in environment
variables`. When `fetch` rejects, or `response.json()` rejects, with an error of
message `e`, it returns the error-flagged result with the text
`Web search encountered an error: ` followed by `e`. -/
theorem C14_searchWeb_faults (env : SearchEnv) (query : JSString) :
    (∃ text, (searchWeb env query).result = textResult text ∨
      (searchWeb env query).result = errorResult text) ∧
    ((env.apiKey = none ∨ env.apiKey = some []) →
      searchWeb env query =
        ⟨.obj [(units "content", .arr [.obj [(units "type", .str (units "text")),
            (units "text", .str (units
              "Web search encountered an error: SERPAPI_KEY not found in environment variables"))]]),
          (units "isError", .bool true)], []⟩) ∧
    (∀ (apiKey encoded : JSString) (e : JSError),
      env.apiKey = some apiKey → apiKey ≠ [] → env.encodeURIComponent query = .ok encoded →
      (env.fetch (searchUrl encoded apiKey) = .error e ∨
        env.fetch (searchUrl encoded apiKey) = .ok (.error e)) →
      searchWeb env query =
        ⟨.obj [(units "content", .arr [.obj [(units "type", .str (units "text")),
            (units "text", .str (units "Web search encountered an error: " ++ e.message))]]),
          (units "isError", .bool true)], [searchUrl encoded apiKey]⟩) := by
  refine ⟨searchWeb_shape env query, ?_, ?_⟩
  · intro h
    rcases h with h | h
    · simp only [searchWeb, searchWebTry, h]
      decide
    · simp only [searchWeb, searchWebTry, h, List.isEmpty_nil, if_true]
      decide
  · intro apiKey encoded e hk hne henc hf
    have hem : apiKey.isEmpty = false := by
      cases apiKey with
      | nil => exact absurd rfl hne
      | cons c cs => rfl
    rcases hf with hf | hf
    · simp only [searchWeb, searchWebTry, hk, hem, henc, hf, Bool.false_eq_true, if_false]
      rfl
    · simp only [searchWeb, searchWebTry, hk, hem, henc, hf, Bool.false_eq_true, if_false]
      rfl

set_option maxRecDepth 100000 in
/-- C14 (witness): with `SERPAPI_KEY` set to `abc` and a `fetch` that rejects with
`fetch failed`, the query `lean 4` gives the error result and one fetch. -/
theorem C14_searchWeb_faults_witness :
    searchWeb fetchFailsEnv (units "lean 4") =
      ⟨.obj [(units "content", .arr [.obj [(units "type", .str (units "text")),
          (units "text", .str (units "Web search encountered an error: fetch failed"))]]),
        (units "isError", .bool true)],
        [units "https://serpapi.com/search.json?q=lean%204&api_key=abc"]⟩ :=
  ((C14_searchWeb_faults fetchFailsEnv (units "lean 4")).2.2 (units "abc") (units "lean%204")
    ⟨units "fetch failed"⟩ rfl (by decide) rfl (Or.inl rfl)).trans (by decide)

/-! ## C16: no message before its frame is complete -/

/-- C16: `processStdoutBuffer` leaves the client state as it is, and so hands
nothing to `handleMessage`, when the buffer has no `\r\n\r\n`, and when the
header before the first `\r\n\r\n` declares the length `n` and fewer than `n`
code units follow the separator, hence also when fewer than `n` UTF-8 bytes
follow it. Whenever a call hands a message to `handleMessage`, the buffer held
the header, the separator and at least the declared number of code units, and
so of bytes. -/
theorem C16_no_premature_decode (parse : JSString → Option JSValue) (s : Client) :
    (indexOf (units "\r\n\r\n") s.stdoutBuffer = none → processStdoutBuffer parse s = some s) ∧
    (∀ headerEnd digits,
      indexOf (units "\r\n\r\n") s.stdoutBuffer = some headerEnd →
      execContentLength (slice s.stdoutBuffer 0 headerEnd) = some digits →
      ((sliceFrom s.stdoutBuffer (headerEnd + 4)).length < parseInt10 digits ∨
        utf8ByteLength (sliceFrom s.stdoutBuffer (headerEnd + 4)) < parseInt10 digits) →
      processStdoutBuffer parse s = some s) ∧
    (∀ s2, processStdoutBuffer parse s = some s2 → s2.handled ≠ s.handled →
      ∃ headerEnd digits,
        indexOf (units "\r\n\r\n") s.stdoutBuffer = some headerEnd ∧
        execContentLength (slice s.stdoutBuffer 0 headerEnd) = some digits ∧
        parseInt10 digits ≤ (sliceFrom s.stdoutBuffer (headerEnd + 4)).length ∧
        parseInt10 digits ≤ utf8ByteLength (sliceFrom s.stdoutBuffer (headerEnd + 4))) := by
  refine ⟨processStdoutBuffer_noSeparator parse s, ?_, ?_⟩
  · intro headerEnd digits hi hm hshort
    have hle := length_le_utf8ByteLength (sliceFrom s.stdoutBuffer (headerEnd + 4))
    have hlen : (sliceFrom s.stdoutBuffer (headerEnd + 4)).length < parseInt10 digits := by
      rcases hshort with h | h <;> omega
    have hfound := indexOf_length _ _ _ hi
    rw [units_separator] at hfound
    simp only [sliceFrom, List.length_drop, List.length_cons, List.length_nil] at hlen hfound
    unfold processStdoutBuffer
    rw [processLoop_succ, hi]
    simp only []
    rw [hm]
    simp only []
    rw [if_pos (by omega)]
  · intro s2 h hne
    unfold processStdoutBuffer at h
    rw [processLoop_succ] at h
    cases hi : indexOf (units "\r\n\r\n") s.stdoutBuffer with
    | none =>
      rw [hi] at h
      cases h
      exact absurd rfl hne
    | some headerEnd =>
      rw [hi] at h
      simp only [] at h
      cases hm : execContentLength (slice s.stdoutBuffer 0 headerEnd) with
      | none =>
        rw [hm] at h
        cases h
        exact absurd rfl hne
      | some digits =>
        rw [hm] at h
        simp only [] at h
        split at h
        · cases h
          exact absurd rfl hne
        · next hlen =>
          have hfound := indexOf_length _ _ _ hi
          rw [units_separator] at hfound
          have hle := length_le_utf8ByteLength (sliceFrom s.stdoutBuffer (headerEnd + 4))
          refine ⟨headerEnd, digits, rfl, hm, ?_, ?_⟩
          · simp only [sliceFrom, List.length_drop, List.length_cons, List.length_nil] at hfound ⊢
            omega
          · simp only [sliceFrom, List.length_drop, List.length_cons, List.length_nil]
              at hfound hle ⊢
            omega

set_option maxRecDepth 100000 in
/-- C16 (witness): the frame of `{"jsonrpc":"2.0","id":"1","result":{}}` without
its last code unit stays in the buffer and resolves nothing. -/
theorem C16_no_premature_decode_witness :
    processStdoutBuffer jsonParse
        { oneCallPending with
          stdoutBuffer := (encodeFrame (jsonStringify emptyResultResponse)).take 59 } =
      some { oneCallPending with
          stdoutBuffer := (encodeFrame (jsonStringify emptyResultResponse)).take 59 } :=
  (C16_no_premature_decode jsonParse
    { oneCallPending with
      stdoutBuffer := (encodeFrame (jsonStringify emptyResultResponse)).take 59 }).2.1
    18 (units "38") (by decide) (by decide) (Or.inl (by decide))

/-! ## C17: a write failure that arrives after its call was completed -/

set_option maxRecDepth 100000 in
/-- C17 (code defect): call 0 was resolved by its response and call 1 is pending
(`secondCallPending`). When the write callback of call 0 then reports
`write EPIPE`, the callback empties the pending slot, which holds call 1. No
callback of call 1 has been invoked, and none is when its response arrives: the
response is handled with the slot empty and call 1 stays unsettled, whereas
without the write failure the same response resolves it. -/
theorem C17_stale_write_failure_clears_later_call :
    onData jsonParse oneCallPending (encodeFrame (jsonStringify emptyResultResponse)) =
      some (handleMessage oneCallPending emptyResultResponse) ∧
    promiseState secondCallPending 0 = some (.resolve (.obj [])) ∧
    secondCallPending.pending = some 1 ∧
    (writeCallback secondCallPending 0 (some ⟨units "write EPIPE"⟩)).pending = none ∧
    promiseState (writeCallback secondCallPending 0 (some ⟨units "write EPIPE"⟩)) 1 = none ∧
    (onData jsonParse (writeCallback secondCallPending 0 (some ⟨units "write EPIPE"⟩))
        (encodeFrame (jsonStringify emptyResultResponse))).map
          (fun s => (s.handled, promiseState s 1)) =
      some ([emptyResultResponse, emptyResultResponse], none) ∧
    (onData jsonParse secondCallPending
        (encodeFrame (jsonStringify emptyResultResponse))).map
          (fun s => (s.handled, promiseState s 1)) =
      some ([emptyResultResponse, emptyResultResponse], some (.resolve (.obj []))) := by
  decide

/-! ## C19: the decoder loop terminates and only shortens the buffer -/

/-- The loop in terms of its passes. -/
theorem processLoop_iteration (parse : JSString → Option JSValue) (fuel : Nat) (s : Client) :
    processLoop parse (fuel + 1) s =
      match loopIteration parse s with
      | .inl r => some r
      | .inr t => processLoop parse fuel t := by
  rw [processLoop_succ]
  unfold loopIteration
  cases indexOf (units "\r\n\r\n") s.stdoutBuffer with
  | none => rfl
  | some headerEnd =>
    simp only []
    cases execContentLength (slice s.stdoutBuffer 0 headerEnd) with
    | none => rfl
    | some digits =>
      simp only []
      split
      · rfl
      · cases parse (slice s.stdoutBuffer (headerEnd + 4) (headerEnd + 4 + parseInt10 digits)) <;> rfl

/-- A pass that goes on has removed at least four code units from the front of
the buffer. -/
theorem loopIteration_continue (parse : JSString → Option JSValue) (s t : Client)
    (h : loopIteration parse s = .inr t) :
    t.stdoutBuffer.length + 4 ≤ s.stdoutBuffer.length ∧ t.stdoutBuffer <:+ s.stdoutBuffer := by
  unfold loopIteration at h
  cases hi : indexOf (units "\r\n\r\n") s.stdoutBuffer with
  | none => rw [hi] at h; cases h
  | some headerEnd =>
    rw [hi] at h
    simp only [] at h
    cases hm : execContentLength (slice s.stdoutBuffer 0 headerEnd) with
    | none => rw [hm] at h; cases h
    | some digits =>
      rw [hm] at h
      simp only [] at h
      split at h
      · cases h
      · next hlen =>
        have hb : t.stdoutBuffer = s.stdoutBuffer.drop (headerEnd + 4 + parseInt10 digits) := by
          cases hparse : parse (slice s.stdoutBuffer (headerEnd + 4)
              (headerEnd + 4 + parseInt10 digits)) with
          | none =>
            rw [hparse] at h
            cases h
            rfl
          | some message =>
            rw [hparse] at h
            cases h
            rw [handleMessage_stdoutBuffer]
            rfl
        rw [hb]
        refine ⟨?_, List.drop_suffix _ _⟩
        rw [List.length_drop]
        omega

/-- A pass that returns leaves the buffer as it is or empty. -/
theorem loopIteration_return (parse : JSString → Option JSValue) (s r : Client)
    (h : loopIteration parse s = .inl r) : r.stdoutBuffer <:+ s.stdoutBuffer := by
  unfold loopIteration at h
  cases hi : indexOf (units "\r\n\r\n") s.stdoutBuffer with
  | none =>
    rw [hi] at h
    cases h
    exact List.suffix_refl _
  | some headerEnd =>
    rw [hi] at h
    simp only [] at h
    cases hm : execContentLength (slice s.stdoutBuffer 0 headerEnd) with
    | none =>
      rw [hm] at h
      cases h
      exact List.nil_suffix
    | some digits =>
      rw [hm] at h
      simp only [] at h
      split at h
      · cases h
        exact List.suffix_refl _
      · cases hparse : parse (slice s.stdoutBuffer (headerEnd + 4)
            (headerEnd + 4 + parseInt10 digits)) with
        | none => rw [hparse] at h; cases h
        | some message => rw [hparse] at h; cases h

theorem processLoop_suffix (parse : JSString → Option JSValue) :
    ∀ (fuel : Nat) (s s2 : Client), processLoop parse fuel s = some s2 →
      s2.stdoutBuffer <:+ s.stdoutBuffer := by
  intro fuel
  induction fuel with
  | zero => intro s s2 h; simp [processLoop] at h
  | succ k ih =>
    intro s s2 h
    rw [processLoop_iteration] at h
    cases hit : loopIteration parse s with
    | inl r =>
      rw [hit] at h
      cases h
      exact loopIteration_return parse s _ hit
    | inr t =>
      rw [hit] at h
      exact (ih t s2 h).trans (loopIteration_continue parse s t hit).2

/-- A quarter of the buffer length, plus one, is enough fuel. -/
theorem processLoop_quarter (parse : JSString → Option JSValue) :
    ∀ (fuel fuel2 : Nat) (s : Client), s.stdoutBuffer.length / 4 < fuel →
      s.stdoutBuffer.length / 4 < fuel2 → processLoop parse fuel s = processLoop parse fuel2 s := by
  intro fuel
  induction fuel with
  | zero => intro fuel2 s h; omega
  | succ k ih =>
    intro fuel2 s h h2
    cases fuel2 with
    | zero => omega
    | succ k2 =>
      rw [processLoop_iteration, processLoop_iteration]
      cases hit : loopIteration parse s with
      | inl r => rfl
      | inr t =>
        have hlen := (loopIteration_continue parse s t hit).1
        exact ih k2 t (by omega) (by omega)

/-- C19: for every buffer `processStdoutBuffer` returns, and the buffer it leaves
is a suffix of the buffer it found (the empty buffer included). Every pass of
the loop that does not return removes at least four code units from the front
of the buffer, so a quarter of the buffer length plus one bounds the number of
passes, and with it the buffer length does. -/
theorem C19_termination_progress (parse : JSString → Option JSValue) (s : Client) :
    (∃ s2, processStdoutBuffer parse s = some s2 ∧ s2.stdoutBuffer <:+ s.stdoutBuffer) ∧
    (∀ fuel, processLoop parse (fuel + 1) s =
      match loopIteration parse s with
      | .inl r => some r
      | .inr t => processLoop parse fuel t) ∧
    (∀ t, loopIteration parse s = .inr t →
      t.stdoutBuffer.length + 4 ≤ s.stdoutBuffer.length ∧ t.stdoutBuffer <:+ s.stdoutBuffer) ∧
    processLoop parse (s.stdoutBuffer.length / 4 + 1) s = processStdoutBuffer parse s := by
  refine ⟨?_, fun fuel => processLoop_iteration parse fuel s,
    fun t h => loopIteration_continue parse s t h, ?_⟩
  · obtain ⟨s2, h⟩ := processStdoutBuffer_returns parse s
    exact ⟨s2, h, processLoop_suffix parse _ s s2 h⟩
  · exact processLoop_quarter parse _ _ s (Nat.lt_succ_self _)
      (Nat.lt_succ_of_le (Nat.div_le_self _ _))

set_option maxRecDepth 100000 in
/-- C19 (witness): a buffer of two frames and a stray `C`: the call returns after
three passes, and the buffer left is the last code unit of the buffer found. -/
theorem C19_termination_progress_witness :
    processLoop jsonParse 3
        { Client.init with
          stdoutBuffer := units "content-length:\r\n 2\r\n\r\n\x7b\x7dContent-Length: 4\r\n\r\n[12]C" } =
      some { Client.init with stdoutBuffer := units "C", handled := [.obj [], .arr [.num 12]] } ∧
    processStdoutBuffer jsonParse
        { Client.init with
          stdoutBuffer := units "content-length:\r\n 2\r\n\r\n\x7b\x7dContent-Length: 4\r\n\r\n[12]C" } =
      some { Client.init with stdoutBuffer := units "C", handled := [.obj [], .arr [.num 12]] } :=
  ⟨by decide,
    ((C19_termination_progress jsonParse
      { Client.init with
        stdoutBuffer := units "content-length:\r\n 2\r\n\r\n\x7b\x7dContent-Length: 4\r\n\r\n[12]C" }).2.2.2).symm.trans
      (by decide)⟩

/-! ## C18: a complete frame whose payload is not JSON -/

/-- A frame counted in code units whose payload is not JSON: let the buffer start
with a header before the first `\r\n\r\n` that declares the length `n`, and at
least `n` code units after the separator, and let `JSON.parse` throw on these
`n` code units (as it does on the empty payload of `Content-Length: 0`). Then
the pass of the loop removes the header, the separator and `n` code units,
changes nothing else and goes on; `processStdoutBuffer` returns, with the result
it gives on the rest of the buffer alone. A complete frame with ASCII JSON text
that is the rest of the buffer is decoded and its message handled. -/
theorem corrupt_payload_dropped (parse : JSString → Option JSValue) (s : Client)
    (headerEnd : Nat) (digits : JSString)
    (hidx : indexOf (units "\r\n\r\n") s.stdoutBuffer = some headerEnd)
    (hexec : execContentLength (slice s.stdoutBuffer 0 headerEnd) = some digits)
    (hcomplete : headerEnd + 4 + parseInt10 digits ≤ s.stdoutBuffer.length)
    (hbad : parse (slice s.stdoutBuffer (headerEnd + 4) (headerEnd + 4 + parseInt10 digits))
      = none) :
    loopIteration parse s =
      .inr { s with stdoutBuffer := s.stdoutBuffer.drop (headerEnd + 4 + parseInt10 digits) } ∧
    processStdoutBuffer parse s =
      processStdoutBuffer parse
        { s with stdoutBuffer := s.stdoutBuffer.drop (headerEnd + 4 + parseInt10 digits) } ∧
    (∃ s2, processStdoutBuffer parse s = some s2) ∧
    (∀ (stringify : JSValue → JSString) (m : JSValue),
      s.stdoutBuffer.drop (headerEnd + 4 + parseInt10 digits) = encodeFrame (stringify m) →
      (∀ c ∈ stringify m, c < 128) → parse (stringify m) = some m →
      processStdoutBuffer parse s = some (handleMessage { s with stdoutBuffer := [] } m)) := by
  have hit : loopIteration parse s =
      .inr { s with stdoutBuffer := s.stdoutBuffer.drop (headerEnd + 4 + parseInt10 digits) } := by
    unfold loopIteration
    rw [hidx]
    simp only []
    rw [hexec]
    simp only []
    rw [if_neg (by omega), hbad]
    rfl
  have hrest : processStdoutBuffer parse s =
      processStdoutBuffer parse
        { s with stdoutBuffer := s.stdoutBuffer.drop (headerEnd + 4 + parseInt10 digits) } := by
    unfold processStdoutBuffer
    rw [processLoop_iteration, hit]
    simp only []
    exact processLoop_fuel parse _ _ _ (by simp only [List.length_drop]; omega)
      (Nat.lt_succ_self _)
  refine ⟨hit, hrest, processStdoutBuffer_returns parse s, ?_⟩
  intro stringify m hframe hascii hparse
  have hlen := utf8ByteLength_ascii _ hascii
  rw [hrest, processStdoutBuffer_frame parse _ (stringify m)
    (by rw [hframe, encodeFrame_eq, hlen]), hparse]

set_option maxRecDepth 100000 in
/-- The frame `Content-Length: 0\r\n\r\n` followed by the frame of
`{"jsonrpc":"2.0","id":"1","result":{}}`, with one call pending: the empty
payload is dropped and the response resolves the call. -/
theorem zero_length_payload_dropped :
    jsonParse [] = none ∧
    processStdoutBuffer jsonParse
        { oneCallPending with
          stdoutBuffer := units "Content-Length: 0\r\n\r\n" ++
            encodeFrame (jsonStringify emptyResultResponse) } =
      some { oneCallPending with
        handled := [emptyResultResponse], pending := none,
        settled := [(0, .resolve (.obj []))] } :=
  ⟨by decide,
    ((corrupt_payload_dropped jsonParse
      { oneCallPending with
        stdoutBuffer := units "Content-Length: 0\r\n\r\n" ++
          encodeFrame (jsonStringify emptyResultResponse) }
      17 (units "0") (by decide) (by decide) (by decide) (by decide)).2.2.2
      jsonStringify emptyResultResponse (by decide) (by decide) (by decide)).trans (by decide)⟩

set_option maxRecDepth 100000 in
/-- C18 (code defect): with one call pending, one `data` event carries
`Content-Length: 4\r\n\r\n{é}`, a complete frame whose payload of four UTF-8
bytes and three code units is not JSON, followed by the frame of
`{"jsonrpc":"2.0","id":"1","result":{}}`. The decoder takes four code units as
payload, the `C` of the next header among them, drops them, finds no header in
`ontent-Length: 38` and empties the buffer: the valid frame is not delivered
and the call stays pending, although the valid frame alone resolves it. After
the empty payload of `Content-Length: 0` the valid frame of the response with
the text `café` is not delivered either: it stays in the buffer. -/
theorem C18_corrupt_nonAscii_payload_loses_next_frame :
    utf8ByteLength (units "\x7bé\x7d") = 4 ∧ (units "\x7bé\x7d").length = 3 ∧
    jsonParse (units "\x7bé\x7d") = none ∧
    onData jsonParse oneCallPending
        (units "Content-Length: 4\r\n\r\n\x7bé\x7d" ++
          encodeFrame (jsonStringify emptyResultResponse)) =
      some { oneCallPending with stdoutBuffer := [], handled := [] } ∧
    oneCallPending.pending = some 0 ∧
    onData jsonParse oneCallPending (encodeFrame (jsonStringify emptyResultResponse)) =
      some { oneCallPending with
        pending := none, handled := [emptyResultResponse],
        settled := [(0, .resolve (.obj []))] } ∧
    jsonParse (jsonStringify cafeResponse) = some cafeResponse ∧
    onData jsonParse oneCallPending
        (units "Content-Length: 0\r\n\r\n" ++ encodeFrame (jsonStringify cafeResponse)) =
      some { oneCallPending with stdoutBuffer := encodeFrame (jsonStringify cafeResponse) } := by
  decide

/-! ## C20: the advertised tools and the dispatch -/

theorem advertisedNames_list : advertisedNames listToolsHandler = [.str (units "search_web")] := by
  decide

theorem errorResult_ne_textResult (a b : JSString) : errorResult a ≠ textResult b := by
  intro h
  simp [errorResult, textResult] at h

theorem errorResult_text (a b : JSString) (h : errorResult a = errorResult b) : a = b := by
  simpa [errorResult] using h

theorem unknownTool_ne_queryError (x : JSString) :
    units "Error: 'query' parameter is required and must be a string" ≠
      units "Unknown tool: " ++ x := by
  have h1 : units "Error: 'query' parameter is required and must be a string" =
      69 :: (units "Error: 'query' parameter is required and must be a string").tail := by decide
  have h2 : units "Unknown tool: " = 85 :: (units "Unknown tool: ").tail := by decide
  rw [h1, h2]
  intro h
  simp at h

theorem unknownTool_ne_searchError (x y : JSString) :
    units "Web search encountered an error: " ++ y ≠ units "Unknown tool: " ++ x := by
  have h1 : units "Web search encountered an error: " =
      87 :: (units "Web search encountered an error: ").tail := by decide
  have h2 : units "Unknown tool: " = 85 :: (units "Unknown tool: ").tail := by decide
  rw [h1, h2]
  intro h
  simp at h

/-- The result of `searchWeb` is never the answer for an unknown tool. -/
theorem searchWeb_ne_unknownTool (env : SearchEnv) (query x : JSString) :
    (searchWeb env query).result ≠ errorResult (units "Unknown tool: " ++ x) := by
  unfold searchWeb
  rcases h : searchWebTry env query with ⟨fetches, outcome⟩
  cases outcome with
  | ok text => exact fun e => errorResult_ne_textResult _ _ e.symm
  | error e => exact fun e2 => unknownTool_ne_searchError x _ (errorResult_text _ _ e2)

/-- The advertised schema of `search_web` is satisfied by the arguments that
hold a `query` property whose value is a string. -/
theorem satisfiesSchema_search_web (args : JSValue) :
    satisfiesSchema (advertisedSchema listToolsHandler (.str (units "search_web"))) args = true ↔
      ∃ q, args.get (units "query") = .str q := by
  have hs : advertisedSchema listToolsHandler (.str (units "search_web")) =
      .obj [(units "type", .str (units "object")),
        (units "properties", .obj [(units "query", .obj [
          (units "type", .str (units "string")),
          (units "description", .str (units "The search query to execute"))])]),
        (units "required", .arr [.str (units "query")])] := by decide
  have ht : (advertisedSchema listToolsHandler (.str (units "search_web"))).get (units "type") =
      .str (units "object") := by decide
  have hr : (advertisedSchema listToolsHandler (.str (units "search_web"))).get
      (units "required") = .arr [.str (units "query")] := by decide
  have hq : (((advertisedSchema listToolsHandler (.str (units "search_web"))).get
      (units "properties")).get (units "query")).get (units "type") = .str (units "string") := by
    decide
  have hne : (JSValue.str (units "string")) ≠ .str (units "object") := by decide
  unfold satisfiesSchema
  rw [ht, hr]
  simp only [List.all_cons, List.all_nil, Bool.and_true, hq]
  cases args with
  | obj props =>
    simp only [hasSchemaType, if_true, if_neg hne.symm, JSValue.hasProp, JSValue.get]
    cases hl : JSValue.lookup (units "query") props with
    | none => simp [JSValue.typeofString]
    | some v => cases v <;> simp [JSValue.typeofString]
  | _ => simp [hasSchemaType, hne.symm, JSValue.get]

/-- C20: the names that the `tools/list` handler returns are `search_web` alone,
and a name is among them exactly when the `tools/call` handler, run with
`searchWeb`, does not answer `Unknown tool: ` followed by the name. The
arguments for which the call handler invokes `searchWeb` are exactly those that
satisfy the advertised input schema of `search_web`: an object that holds the
required `query` property with a value of type string. -/
theorem C20_advertised_tools_agree (env : SearchEnv) (name args : JSValue) :
    advertisedNames listToolsHandler = [.str (units "search_web")] ∧
    (name ∈ advertisedNames listToolsHandler ↔
      (callToolHandler (fun q => (searchWeb env q).result) name args).result ≠
        errorResult (units "Unknown tool: " ++ toStr name)) ∧
    ((callToolHandler (fun q => (searchWeb env q).result) (.str (units "search_web"))
        args).searchWebCalls ≠ [] ↔
      satisfiesSchema (advertisedSchema listToolsHandler (.str (units "search_web"))) args
        = true) ∧
    (satisfiesSchema (advertisedSchema listToolsHandler (.str (units "search_web"))) args = true ↔
      ∃ q, args.get (units "query") = .str q) := by
  refine ⟨advertisedNames_list, ?_, ?_, satisfiesSchema_search_web args⟩
  · rw [advertisedNames_list, List.mem_singleton]
    unfold callToolHandler
    by_cases hn : name = .str (units "search_web")
    · rw [if_pos hn]
      refine ⟨fun _ => ?_, fun _ => hn⟩
      split
      · exact fun e => unknownTool_ne_queryError _ (errorResult_text _ _ e)
      · split
        · exact searchWeb_ne_unknownTool env _ _
        · exact fun e => unknownTool_ne_queryError _ (errorResult_text _ _ e)
    · rw [if_neg hn]
      exact ⟨fun h => absurd h hn, fun h => absurd rfl h⟩
  · rw [satisfiesSchema_search_web]
    unfold callToolHandler
    rw [if_pos rfl]
    by_cases ht : args.truthy = true
    · simp only [ht, Bool.not_true, Bool.false_eq_true, if_false]
      cases hq : args.get (units "query") <;> simp
    · have hf : args.truthy = false := by simpa using ht
      have hu : args.get (units "query") = .undefined := by
        cases args <;> simp [JSValue.truthy] at hf <;> rfl
      simp [hf, hu]

set_option maxRecDepth 100000 in
/-- C20 (witness): the arguments `{"query":"lean"}` satisfy the advertised schema
and make the handler invoke `searchWeb` with `lean`; the arguments `{"query":7}`
do neither. -/
theorem C20_advertised_tools_agree_witness :
    satisfiesSchema (advertisedSchema listToolsHandler (.str (units "search_web")))
        (.obj [(units "query", .str (units "lean"))]) = true ∧
    (callToolHandler (fun q => (searchWeb noKeyEnv q).result) (.str (units "search_web"))
        (.obj [(units "query", .str (units "lean"))])).searchWebCalls = [units "lean"] ∧
    satisfiesSchema (advertisedSchema listToolsHandler (.str (units "search_web")))
        (.obj [(units "query", .num 7)]) = false ∧
    (callToolHandler (fun q => (searchWeb noKeyEnv q).result) (.str (units "search_web"))
        (.obj [(units "query", .num 7)])).searchWebCalls = [] :=
  ⟨((C20_advertised_tools_agree noKeyEnv .null
      (.obj [(units "query", .str (units "lean"))])).2.2.2).mpr ⟨units "lean", by decide⟩,
    by decide, by decide, by decide⟩

end McpStdio
